import Mathlib

/-!
Shallow embedding of the sprite-sheet slicer core (App component and types).

Numbers: the source manipulates JS numbers; normalized divider positions,
pixel coordinates and sizes are modelled as rationals (ℚ), frame ids as ℕ,
offsets and sequence orders as ℤ.  `Math.sqrt(d) < 5` is modelled as
`d < 25` (square-root is strictly monotone on nonnegative reals).
JS `Array.prototype.sort` with comparator `(a,b) => a.sequenceOrder -
b.sequenceOrder` is a stable ascending sort; it is modelled by the stable
`List.insertionSort` with relation `a.sequenceOrder ≤ b.sequenceOrder`.
-/

/-- FrameConfig record from types.ts. -/
structure FrameConfig where
  id : ℕ
  row : ℕ
  col : ℕ
  x : ℚ
  y : ℚ
  width : ℚ
  height : ℚ
  offsetX : ℤ
  offsetY : ℤ
  active : Bool
  sequenceOrder : ℤ
  deriving DecidableEq, Inhabited

/-- GridDimensions record from types.ts. -/
structure GridDimensions where
  rows : ℕ
  cols : ℕ
  deriving DecidableEq

/-- Axis of a divider line: the `v` / `h` tag used by drag and hover targets. -/
inductive DividerAxis where
  | v
  | h
  deriving DecidableEq

/-- Drag/hover target: `{ type: 'v' | 'h', index: number }`. -/
structure DividerTarget where
  axis : DividerAxis
  index : ℕ
  deriving DecidableEq

/-- Dividers record: normalized positions (0 to 1) of the movable grid lines. -/
structure Dividers where
  v : List ℚ
  h : List ℚ
  deriving DecidableEq

/-- SelectionBox record: an in-progress marquee in canvas pixel space. -/
structure SelectionBox where
  startX : ℚ
  startY : ℚ
  currentX : ℚ
  currentY : ℚ
  deriving DecidableEq

/-- Loaded source image: its natural pixel dimensions.  `none` models an
image that is absent or has not finished loading (the
`!imgRef.current.complete || !imgRef.current.src` guard). -/
structure ImageInfo where
  width : ℚ
  height : ℚ
  deriving DecidableEq

/-- Axis-aligned rectangle argument shape of `isIntersecting` and
`getSelectionRect`. -/
structure Rect where
  x : ℚ
  y : ℚ
  width : ℚ
  height : ℚ
  deriving DecidableEq

/-- The mutable state of the App component that the core handlers touch. -/
structure AppState where
  image : Option ImageInfo
  grid : GridDimensions
  dividers : Dividers
  frames : List FrameConfig
  selectedFrameIds : List ℕ
  fps : ℤ
  isPlaying : Bool
  previewFrameIndex : ℕ
  dragTarget : Option DividerTarget
  hoverTarget : Option DividerTarget
  selectionBox : Option SelectionBox
  isSelecting : Bool
  deriving DecidableEq

/-- Pixels distance to grab a line (`const HIT_TOLERANCE = 12`). -/
def HIT_TOLERANCE : ℚ := 12

/-- Derived state `activeFrames` (lines 61-65): frames filtered to the active
ones and stably sorted by `sequenceOrder` ascending.  The same expression is
recomputed inline as `sortedActive` in `moveFrameInSequence` (line 177). -/
def activeFrames (s : AppState) : List FrameConfig :=
  List.insertionSort (fun a b => a.sequenceOrder ≤ b.sequenceOrder)
    (s.frames.filter (fun f => f.active))

/-- resetDividers (lines 69-73): rebuild both divider sequences to the evenly
spaced values `(i+1)/cols` and `(i+1)/rows`. -/
def resetDividers (rows cols : ℕ) : Dividers :=
  { v := (List.range (cols - 1)).map (fun i : ℕ => ((i : ℚ) + 1) / (cols : ℚ)),
    h := (List.range (rows - 1)).map (fun i : ℕ => ((i : ℚ) + 1) / (rows : ℚ)) }

/-- Split points of one axis (line 96-97):
`[0, ...dividers, 1].map(p => p * size)`. -/
def splitPoints (ds : List ℚ) (size : ℚ) : List ℚ :=
  (((0 : ℚ) :: ds) ++ [1]).map (fun p => p * size)

/-- One cell of the rebuilt frame list (body of the nested loops of
`calculateFrames`, lines 103-128).  `idCounter` of the source increments once
per inner iteration, hence equals `r * nCols + c`. -/
def frameAt (xPoints yPoints : List ℚ) (prev : List FrameConfig)
    (nCols r c : ℕ) : FrameConfig :=
  let x := xPoints.getD c 0
  let y := yPoints.getD r 0
  let width := xPoints.getD (c + 1) 0 - x
  let height := yPoints.getD (r + 1) 0 - y
  let idCounter := r * nCols + c
  match prev.find? (fun p => p.row == r && p.col == c) with
  | some existing =>
      { id := idCounter, row := r, col := c, x := x, y := y,
        width := width, height := height,
        offsetX := existing.offsetX, offsetY := existing.offsetY,
        active := existing.active, sequenceOrder := existing.sequenceOrder }
  | none =>
      { id := idCounter, row := r, col := c, x := x, y := y,
        width := width, height := height,
        offsetX := 0, offsetY := 0, active := true,
        sequenceOrder := (idCounter : ℤ) }

/-- The frame list rebuilt by `calculateFrames` (lines 89-131): raster-order
(row-major) enumeration of the grid cells cut by the split points. -/
def rebuildFrames (d : Dividers) (imgWidth imgHeight : ℚ)
    (prev : List FrameConfig) : List FrameConfig :=
  let xPoints := splitPoints d.v imgWidth
  let yPoints := splitPoints d.h imgHeight
  let nCols := xPoints.length - 1
  (List.range (yPoints.length - 1)).flatMap (fun r =>
    (List.range nCols).map (fun c => frameAt xPoints yPoints prev nCols r c))

/-- calculateFrames (lines 89-134) as a state transformer: a no-op while the
image is not loaded; otherwise rebuilds `frames` from the current dividers and
image dimensions and clears the selection. -/
def calculateFrames (s : AppState) : AppState :=
  match s.image with
  | none => s
  | some img =>
      { s with
        frames := rebuildFrames s.dividers img.width img.height s.frames,
        selectedFrameIds := [] }

/-- Which grid input field changed (`type: 'rows' | 'cols'`). -/
inductive GridField where
  | rows
  | cols
  deriving DecidableEq

/-- handleGridCountChange (lines 136-141): clamp the requested value into
`[1, 20]`, update the grid record and reset the dividers to even spacing. -/
def handleGridCountChange (s : AppState) (field : GridField) (val : ℤ) :
    AppState :=
  let newVal := (max 1 (min 20 val)).toNat
  let newGrid :=
    match field with
    | GridField.rows => { s.grid with rows := newVal }
    | GridField.cols => { s.grid with cols := newVal }
  { s with grid := newGrid,
           dividers := resetDividers newGrid.rows newGrid.cols }

/-- moveFrameInSequence (lines 170-196): swap the `sequenceOrder` of the
single selected active frame with its neighbor in the active-sorted list. -/
def moveFrameInSequence (s : AppState) (direction : ℤ) : AppState :=
  if s.selectedFrameIds.length ≠ 1 then s
  else
    let selectedId := s.selectedFrameIds.headD 0
    match s.frames.find? (fun f => f.id == selectedId) with
    | none => s
    | some frame =>
      if frame.active = false then s
      else
        let sortedActive := activeFrames s
        match sortedActive.findIdx? (fun f => f.id == selectedId) with
        | none => s
        | some currentIndex =>
          let swapIndex : ℤ := (currentIndex : ℤ) + direction
          if swapIndex < 0 ∨ (sortedActive.length : ℤ) ≤ swapIndex then s
          else
            let targetFrame := sortedActive.getD swapIndex.toNat default
            let newOrderA := targetFrame.sequenceOrder
            let newOrderB := frame.sequenceOrder
            { s with
              frames := s.frames.map (fun f =>
                if f.id == frame.id then { f with sequenceOrder := newOrderA }
                else if f.id == targetFrame.id then
                  { f with sequenceOrder := newOrderB }
                else f) }

/-- getSelectionRect (lines 379-385): normalize a marquee box to an
axis-aligned rectangle via min and absolute difference of the two corners. -/
def getSelectionRect (box : SelectionBox) : Rect :=
  { x := min box.startX box.currentX,
    y := min box.startY box.currentY,
    width := |box.currentX - box.startX|,
    height := |box.currentY - box.startY| }

/-- isIntersecting (lines 387-392): axis-aligned rectangle overlap test,
negation of the four strict separating comparisons. -/
def isIntersecting (r1 r2 : Rect) : Bool :=
  !(decide (r2.x > r1.x + r1.width) || decide (r2.x + r2.width < r1.x) ||
    decide (r2.y > r1.y + r1.height) || decide (r2.y + r2.height < r1.y))

/-- View of a FrameConfig as the rectangle fields read by `isIntersecting`
when a frame is passed as its second argument (line 597). -/
def frameRect (f : FrameConfig) : Rect :=
  { x := f.x, y := f.y, width := f.width, height := f.height }

/-- Clamped divider update: the body of the drag branch of `handleMouseMove`
(lines 530-537 for the vertical axis, 538-546 for the horizontal axis; the two
branches are the same computation on the respective array). -/
def dragClampLine (arr : List ℚ) (index : ℕ) (proposed : ℚ) : List ℚ :=
  let prevLimit := if index = 0 then 0 else arr.getD (index - 1) 0
  let nextLimit := if index = arr.length - 1 then 1 else arr.getD (index + 1) 0
  let newPos := max (prevLimit + 1/100) (min (nextLimit - 1/100) proposed)
  arr.set index newPos

/-- Hit test of the hover branch of `handleMouseMove` (lines 555-572): first
vertical divider within `HIT_TOLERANCE` of the pointer, else first horizontal
one, else none. -/
def hitTest (d : Dividers) (x y canvasWidth canvasHeight : ℚ) :
    Option DividerTarget :=
  match d.v.findIdx? (fun pos => decide (|x - pos * canvasWidth| < HIT_TOLERANCE)) with
  | some i => some { axis := DividerAxis.v, index := i }
  | none =>
    match d.h.findIdx? (fun pos => decide (|y - pos * canvasHeight| < HIT_TOLERANCE)) with
    | some i => some { axis := DividerAxis.h, index := i }
    | none => none

/-- handleMouseMove (lines 524-573): while dragging a divider, write its
clamped position; while selecting, update the marquee corner; otherwise update
the hover target.  `x`, `y` are the pointer position and `canvasWidth`,
`canvasHeight` the canvas dimensions in canvas pixel space. -/
def handleMouseMove (s : AppState) (x y canvasWidth canvasHeight : ℚ) :
    AppState :=
  match s.dragTarget with
  | some t =>
    match t.axis with
    | DividerAxis.v =>
        { s with dividers :=
            { s.dividers with
              v := dragClampLine s.dividers.v t.index (x / canvasWidth) } }
    | DividerAxis.h =>
        { s with dividers :=
            { s.dividers with
              h := dragClampLine s.dividers.h t.index (y / canvasHeight) } }
  | none =>
    if s.isSelecting && s.selectionBox.isSome then
      { s with selectionBox :=
          (Option.map (fun b => { b with currentX := x, currentY := y })
            s.selectionBox) }
    else
      { s with hoverTarget := hitTest s.dividers x y canvasWidth canvasHeight }

/-- Squared start-to-end gesture distance; the source compares
`Math.sqrt(distSq) < 5`, equivalently `distSq < 25`. -/
def distSq (x y sx sy : ℚ) : ℚ :=
  (x - sx) ^ 2 + (y - sy) ^ 2

/-- handleMouseUp (lines 575-604): end a divider drag, or resolve a gesture:
a click (distance under 5 px) selects the first frame containing the pointer,
a marquee selects every frame intersecting the normalized box. -/
def handleMouseUp (s : AppState) (x y : ℚ) : AppState :=
  match s.dragTarget with
  | some _ => { s with dragTarget := none }
  | none =>
    match s.isSelecting, s.selectionBox with
    | true, some box =>
      let s1 :=
        if distSq x y box.startX box.startY < 25 then
          match s.frames.find? (fun f =>
              decide (x ≥ f.x) && decide (x < f.x + f.width) &&
              decide (y ≥ f.y) && decide (y < f.y + f.height)) with
          | some clickedFrame => { s with selectedFrameIds := [clickedFrame.id] }
          | none => { s with selectedFrameIds := [] }
        else
          let selRect := getSelectionRect box
          let intersected := s.frames.filter
            (fun f => isIntersecting selRect (frameRect f))
          { s with selectedFrameIds := intersected.map (fun f => f.id) }
      { s1 with selectionBox := none, isSelecting := false }
    | _, _ => s

/-- handleMouseLeave (lines 606-611): abort any drag, hover or marquee. -/
def handleMouseLeave (s : AppState) : AppState :=
  { s with dragTarget := none, hoverTarget := none,
           selectionBox := none, isSelecting := false }

/-- One firing of the preview interval callback together with its guard
(lines 351-363): while playing with a nonempty active sequence, advance the
index cyclically; otherwise no interval is installed and nothing changes. -/
def previewTick (s : AppState) : AppState :=
  if s.isPlaying = false ∨ (activeFrames s).length = 0 then s
  else { s with previewFrameIndex :=
          (s.previewFrameIndex + 1) % (activeFrames s).length }

/-- The range guard at the top of the preview loop effect (lines 352-356):
when playing with a nonempty active sequence and an out-of-range index, the
index is reset to 0 before the interval is installed. -/
def previewLoopReset (s : AppState) : AppState :=
  if s.isPlaying = false ∨ (activeFrames s).length = 0 then s
  else if (activeFrames s).length ≤ s.previewFrameIndex then
    { s with previewFrameIndex := 0 }
  else s

/-- Index actually read by the preview renderer (line 633):
`previewFrameIndex % activeFrames.length`. -/
def safeIndex (s : AppState) : ℕ :=
  s.previewFrameIndex % (activeFrames s).length

/-- Longest digit prefix of a character list, as read by JS `parseInt` after
the sign; `none` when the first character is not a digit (NaN). -/
def parseDigitsAux (acc : ℕ) : List Char → ℕ
  | [] => acc
  | c :: cs => if c.isDigit then parseDigitsAux (10 * acc + (c.toNat - 48)) cs else acc

/-- Digit-prefix parser entry: fails (NaN) when no leading digit exists. -/
def parseDigits : List Char → Option ℕ
  | [] => none
  | c :: cs => if c.isDigit then some (parseDigitsAux (c.toNat - 48) cs) else none

/-- JS `parseInt(s)` on base-10 input: skip leading whitespace, optional sign,
then the longest digit prefix; `none` models NaN. -/
def jsParseInt (input : String) : Option ℤ :=
  match input.toList.dropWhile (fun c => c.isWhitespace) with
  | '-' :: rest => (parseDigits rest).map (fun n => -(n : ℤ))
  | '+' :: rest => (parseDigits rest).map (fun n => (n : ℤ))
  | cs => (parseDigits cs).map (fun n => (n : ℤ))

/-- The fps input handler (line 830): `setFps(parseInt(e.target.value) || 8)`.
Both NaN and 0 are falsy in JS, so they fall back to 8; any other parsed
integer, including a negative one, is stored as is. -/
def fpsOnChange (input : String) : ℤ :=
  match jsParseInt input with
  | none => 8
  | some v => if v = 0 then 8 else v

/-- Initial fps state (line 36): `useState<number>(8)`. -/
def initialFps : ℤ := 8

/-- Initial divider state (line 31):
`useState<Dividers>({ v: [0.33, 0.66], h: [0.33, 0.66] })`. -/
def initialDividers : Dividers :=
  { v := [(0.33 : ℚ), (0.66 : ℚ)], h := [(0.33 : ℚ), (0.66 : ℚ)] }

/-- Divider positions of one axis padded with the implicit 0 and 1
boundaries. -/
def paddedPoints (l : List ℚ) : List ℚ :=
  ((0 : ℚ) :: l) ++ [1]

/-- Minimum-gap invariant of one divider axis: every adjacent pair of the
sequence, boundaries 0 and 1 included, is separated by at least 0.01. -/
def SepOK (l : List ℚ) : Prop :=
  ∀ i, i < l.length + 1 →
    (paddedPoints l).getD i 0 + 1/100 ≤ (paddedPoints l).getD (i + 1) 0

/-- Strict monotonicity of one divider axis, boundaries 0 and 1 included. -/
def StrictAscent (l : List ℚ) : Prop :=
  ∀ i, i < l.length + 1 →
    (paddedPoints l).getD i 0 < (paddedPoints l).getD (i + 1) 0

/-- Sample state with every field at its initial value (lines 28-51), used to
instantiate the theorems below on concrete inputs. -/
def baseState : AppState :=
  { image := none, grid := { rows := 3, cols := 3 }, dividers := initialDividers,
    frames := [], selectedFrameIds := [], fps := 8, isPlaying := true,
    previewFrameIndex := 0, dragTarget := none, hoverTarget := none,
    selectionBox := none, isSelecting := false }

/-- Sample frame list: a 3 by 3 raster grid of 100-pixel cells. -/
def gridFrames3 : List FrameConfig :=
  [{ id := 0, row := 0, col := 0, x := 0, y := 0, width := 100, height := 100,
     offsetX := 0, offsetY := 0, active := true, sequenceOrder := 0 },
   { id := 1, row := 0, col := 1, x := 100, y := 0, width := 100, height := 100,
     offsetX := 0, offsetY := 0, active := true, sequenceOrder := 1 },
   { id := 2, row := 0, col := 2, x := 200, y := 0, width := 100, height := 100,
     offsetX := 0, offsetY := 0, active := true, sequenceOrder := 2 },
   { id := 3, row := 1, col := 0, x := 0, y := 100, width := 100, height := 100,
     offsetX := 0, offsetY := 0, active := true, sequenceOrder := 3 },
   { id := 4, row := 1, col := 1, x := 100, y := 100, width := 100, height := 100,
     offsetX := 0, offsetY := 0, active := true, sequenceOrder := 4 },
   { id := 5, row := 1, col := 2, x := 200, y := 100, width := 100, height := 100,
     offsetX := 0, offsetY := 0, active := true, sequenceOrder := 5 },
   { id := 6, row := 2, col := 0, x := 0, y := 200, width := 100, height := 100,
     offsetX := 0, offsetY := 0, active := true, sequenceOrder := 6 },
   { id := 7, row := 2, col := 1, x := 100, y := 200, width := 100, height := 100,
     offsetX := 0, offsetY := 0, active := true, sequenceOrder := 7 },
   { id := 8, row := 2, col := 2, x := 200, y := 200, width := 100, height := 100,
     offsetX := 0, offsetY := 0, active := true, sequenceOrder := 8 }]

/-- Sample playing state with the first 4 sample frames and index 2. -/
def statePlay4 : AppState :=
  { baseState with frames := gridFrames3.take 4, previewFrameIndex := 2 }

/-- Sample playing state whose active sequence shrank to 2 frames while the
index was 3. -/
def stateShrunk2 : AppState :=
  { baseState with frames := gridFrames3.take 2, previewFrameIndex := 3 }

/-- Sample state with a loaded 300 by 300 image. -/
def stateImg : AppState :=
  { baseState with image := some { width := 300, height := 300 } }

/-- Sample state dragging the first vertical divider. -/
def stateDrag : AppState :=
  { baseState with dragTarget := some { axis := DividerAxis.v, index := 0 } }

/-- Sample state in the middle of a zero-movement gesture at (150, 150) over
the 3 by 3 sample grid. -/
def clickBox : SelectionBox :=
  { startX := 150, startY := 150, currentX := 150, currentY := 150 }

def stateClick : AppState :=
  { baseState with frames := gridFrames3, isSelecting := true, selectionBox := some clickBox }

/-- The marquee box with its two corners exchanged: the drag read backwards,
used to state that marquee selection does not depend on which corner was the
start. -/
def swapCorners (box : SelectionBox) : SelectionBox :=
  { startX := box.currentX, startY := box.currentY,
    currentX := box.startX, currentY := box.startY }

/-- Sample marquee box covering the first two columns of the 3 by 3 sample
grid in full and stopping short of the third. -/
def marqBox : SelectionBox :=
  { startX := 0, startY := 0, currentX := 199, currentY := 300 }

/-- Sample state in the middle of that marquee drag. -/
def stateMarq : AppState :=
  { baseState with frames := gridFrames3, isSelecting := true, selectionBox := some marqBox }

/-- Sample state with the first two sample frames and the frame with id 0
selected, for exercising the sequence reordering. -/
def stateSeq : AppState :=
  { baseState with frames := gridFrames3.take 2, selectedFrameIds := [0] }

/-- Frame list with pairwise distinct ids but a duplicated sequenceOrder
value: ids 0, 1, 2 with orders 0, 1, 1, all active. -/
def cexFrames : List FrameConfig :=
  [{ id := 0, row := 0, col := 0, x := 0, y := 0, width := 100, height := 100,
     offsetX := 0, offsetY := 0, active := true, sequenceOrder := 0 },
   { id := 1, row := 0, col := 1, x := 100, y := 0, width := 100, height := 100,
     offsetX := 0, offsetY := 0, active := true, sequenceOrder := 1 },
   { id := 2, row := 0, col := 2, x := 200, y := 0, width := 100, height := 100,
     offsetX := 0, offsetY := 0, active := true, sequenceOrder := 1 }]

/-- Sample state built on `cexFrames` with the frame of id 1 selected. -/
def cexState : AppState :=
  { baseState with frames := cexFrames, selectedFrameIds := [1] }

/-! ## General helper lemmas -/

theorem paddedPoints_length (l : List ℚ) : (paddedPoints l).length = l.length + 2 := by
  simp [paddedPoints]

theorem paddedPoints_getD_zero (l : List ℚ) : (paddedPoints l).getD 0 0 = 0 := by
  simp [paddedPoints]

theorem paddedPoints_getD_succ (l : List ℚ) (i : ℕ) (hi : i < l.length) :
    (paddedPoints l).getD (i + 1) 0 = l.getD i 0 := by
  simp only [paddedPoints, List.getD_eq_getElem?_getD, List.cons_append,
    List.getElem?_cons_succ, List.getElem?_append_left hi]

theorem paddedPoints_getD_last (l : List ℚ) :
    (paddedPoints l).getD (l.length + 1) 0 = 1 := by
  simp only [paddedPoints, List.getD_eq_getElem?_getD, List.cons_append,
    List.getElem?_cons_succ, List.getElem?_append_right (le_refl l.length)]
  simp

theorem paddedPoints_set (l : List ℚ) (i : ℕ) (a : ℚ) (hi : i < l.length) :
    paddedPoints (l.set i a) = (paddedPoints l).set (i + 1) a := by
  simp only [paddedPoints, List.cons_append, List.set_cons_succ,
    List.set_append_left _ _ (by simpa using hi)]

theorem setGetD (l : List ℚ) (m n : ℕ) (a : ℚ) (hn : n < l.length) :
    (l.set m a).getD n 0 = if m = n then a else l.getD n 0 := by
  rw [List.getD_eq_getElem?_getD, List.getD_eq_getElem?_getD,
    List.getElem?_eq_getElem (by simpa using hn), List.getElem?_eq_getElem hn]
  simp [List.getElem_set]

theorem sepOK_strictAscent {l : List ℚ} (h : SepOK l) : StrictAscent l := by
  intro i hi
  have := h i hi
  linarith


/-! ## C9: pointer-leave clears only the interaction state -/

/-- C9: a pointer-leave event clears the drag target, the hover target, the
marquee rectangle and the selecting flag, and changes nothing else: frames,
dividers, selection, grid, image, fps, playing flag and preview index are
exactly as before. -/
theorem mouseLeave_clears_interaction_only (s : AppState) :
    (handleMouseLeave s).dragTarget = none ∧
    (handleMouseLeave s).hoverTarget = none ∧
    (handleMouseLeave s).selectionBox = none ∧
    (handleMouseLeave s).isSelecting = false ∧
    (handleMouseLeave s).frames = s.frames ∧
    (handleMouseLeave s).dividers = s.dividers ∧
    (handleMouseLeave s).selectedFrameIds = s.selectedFrameIds ∧
    (handleMouseLeave s).image = s.image ∧
    (handleMouseLeave s).grid = s.grid ∧
    (handleMouseLeave s).fps = s.fps ∧
    (handleMouseLeave s).isPlaying = s.isPlaying ∧
    (handleMouseLeave s).previewFrameIndex = s.previewFrameIndex := by
  refine ⟨rfl, rfl, rfl, rfl, rfl, rfl, rfl, rfl, rfl, rfl, rfl, rfl⟩

/-! ## C8: the fps invariant fails on negative input -/

/-- C8 evaluation: the initial fps is 8, but the claim that every input
string leaves the stored fps at least 1 fails on the input string "-3":
`parseInt("-3")` is `-3`, which is truthy in JS, so the `|| 8` fallback does
not fire and the stored fps is `-3 < 1`. -/
theorem fpsOnChange_negative_input :
    initialFps = 8 ∧ fpsOnChange "-3" = -3 ∧ fpsOnChange "-3" < 1 ∧
    fpsOnChange "abc" = 8 ∧ fpsOnChange "0" = 8 ∧ fpsOnChange "12" = 12 := by
  refine ⟨rfl, ?_, ?_, ?_, ?_, ?_⟩ <;> decide

/-! ## C7: preview scheduler -/

theorem previewTick_frames (s : AppState) : (previewTick s).frames = s.frames := by
  unfold previewTick
  split <;> rfl

theorem previewTick_isPlaying (s : AppState) :
    (previewTick s).isPlaying = s.isPlaying := by
  unfold previewTick
  split <;> rfl

theorem activeFrames_previewTick (s : AppState) :
    activeFrames (previewTick s) = activeFrames s := by
  unfold activeFrames
  rw [previewTick_frames]

theorem previewTick_advances (t : AppState) (hp : t.isPlaying = true)
    (hn : (activeFrames t).length ≠ 0) :
    (previewTick t).previewFrameIndex =
      (t.previewFrameIndex + 1) % (activeFrames t).length := by
  unfold previewTick
  rw [if_neg (by rw [hp]; simpa using hn)]

theorem previewTick_iterate (s : AppState) (hp : s.isPlaying = true)
    (hn : (activeFrames s).length = 4) (hidx : s.previewFrameIndex < 4) :
    ∀ k, (previewTick^[k] s).previewFrameIndex = (s.previewFrameIndex + k) % 4 ∧
      (previewTick^[k] s).isPlaying = true ∧
      (activeFrames (previewTick^[k] s)).length = 4 := by
  intro k
  induction k with
  | zero =>
    refine ⟨?_, hp, hn⟩
    simp
    omega
  | succ m ih =>
    obtain ⟨hidx2, hp2, hn2⟩ := ih
    rw [Function.iterate_succ_apply']
    refine ⟨?_, ?_, ?_⟩
    · rw [previewTick_advances _ hp2 (by rw [hn2]; omega), hn2, hidx2]
      omega
    · rw [previewTick_isPlaying, hp2]
    · rw [activeFrames_previewTick, hn2]

/-- C7: while playing with N active frames, a preview tick replaces the index
by `(index + 1) % N`; for N = 4 every starting index below N returns to itself
after exactly 4 ticks; with N = 0 a tick changes nothing; and when the active
sequence shrinks below the current index (for instance N = 2, index = 3), the
loop guard resets the stored index to 0 while the renderer reads the in-range
index `previewFrameIndex % N`. -/
theorem preview_cycle_spec (s : AppState) :
    ((activeFrames s).length = 0 → previewTick s = s) ∧
    (s.isPlaying = true → (activeFrames s).length ≠ 0 →
      (previewTick s).previewFrameIndex =
        (s.previewFrameIndex + 1) % (activeFrames s).length) ∧
    (s.isPlaying = true → (activeFrames s).length = 4 →
      s.previewFrameIndex < 4 →
      (previewTick^[4] s).previewFrameIndex = s.previewFrameIndex ∧
      ∀ k, 0 < k → k < 4 →
        (previewTick^[k] s).previewFrameIndex ≠ s.previewFrameIndex) ∧
    (s.isPlaying = true → (activeFrames s).length ≠ 0 →
      (activeFrames s).length ≤ s.previewFrameIndex →
      (previewLoopReset s).previewFrameIndex = 0) ∧
    ((activeFrames s).length ≠ 0 → safeIndex s < (activeFrames s).length) := by
  refine ⟨?_, ?_, ?_, ?_, ?_⟩
  · intro h0
    unfold previewTick
    rw [if_pos (Or.inr h0)]
  · intro hp hn
    exact previewTick_advances s hp hn
  · intro hp hn hidx
    constructor
    · rw [(previewTick_iterate s hp hn hidx 4).1]
      omega
    · intro k hk1 hk4
      rw [(previewTick_iterate s hp hn hidx k).1]
      omega
  · intro hp hn hge
    unfold previewLoopReset
    rw [if_neg (by rw [hp]; simpa using hn), if_pos hge]
  · intro hn
    unfold safeIndex
    exact Nat.mod_lt _ (by omega)


/-- Witness for the preview claim: with the 3 by 3 sample grid trimmed to the
first 4 frames and index 2, four ticks return to index 2, and with 2 frames
and index 3 the loop guard resets to 0 while the renderer reads index 1. -/
theorem preview_cycle_witness :
    (previewTick^[4] statePlay4).previewFrameIndex = 2 ∧
    (previewLoopReset stateShrunk2).previewFrameIndex = 0 ∧
    safeIndex stateShrunk2 = 1 := by
  refine ⟨?_, ?_, ?_⟩
  · exact ((preview_cycle_spec _).2.2.1 rfl (by decide) (by decide)).1
  · exact (preview_cycle_spec _).2.2.2.1 rfl (by decide) (by decide)
  · decide

/-! ## Evenly spaced dividers (resetDividers) -/

theorem rangeMap_getD (f : ℕ → ℚ) (m k : ℕ) (hk : k < m) :
    ((List.range m).map f).getD k 0 = f k := by
  rw [List.getD_eq_getElem?_getD, List.getElem?_map, List.getElem?_range hk]
  rfl

theorem resetList_getD (n : ℕ) (h1 : 1 ≤ n) (j : ℕ) (hj : j ≤ n) :
    (paddedPoints ((List.range (n - 1)).map
      (fun i : ℕ => ((i : ℚ) + 1) / (n : ℚ)))).getD j 0 = (j : ℚ) / n := by
  have hn0 : (n : ℚ) ≠ 0 := by
    exact_mod_cast (by omega : n ≠ 0)
  match j with
  | 0 => rw [paddedPoints_getD_zero]; simp
  | k + 1 =>
    rcases Nat.lt_or_ge k (n - 1) with hk | hk
    · rw [paddedPoints_getD_succ _ k (by simpa using hk), rangeMap_getD _ _ _ hk]
      push_cast
      ring_nf
    · have hkeq : k = n - 1 := by omega
      subst hkeq
      have hlen : ((List.range (n - 1)).map
          (fun i : ℕ => ((i : ℚ) + 1) / (n : ℚ))).length = n - 1 := by simp
      have h2 : n - 1 + 1 = n := by omega
      have hlast := paddedPoints_getD_last ((List.range (n - 1)).map
        (fun i : ℕ => ((i : ℚ) + 1) / (n : ℚ)))
      rw [hlen, h2] at hlast
      rw [h2, hlast, div_self hn0]

theorem sepOK_reset (n : ℕ) (h1 : 1 ≤ n) (h100 : n ≤ 100) :
    SepOK ((List.range (n - 1)).map (fun i : ℕ => ((i : ℚ) + 1) / (n : ℚ))) := by
  intro i hi
  have hlen : ((List.range (n - 1)).map
      (fun i : ℕ => ((i : ℚ) + 1) / (n : ℚ))).length = n - 1 := by simp
  rw [hlen] at hi
  have hnq : (0 : ℚ) < (n : ℚ) := by exact_mod_cast (by omega : 0 < n)
  rw [resetList_getD n h1 i (by omega), resetList_getD n h1 (i + 1) (by omega)]
  have hstep : ((i : ℚ) + 1) / n = (i : ℚ) / n + 1 / n := by rw [add_div]
  push_cast
  rw [hstep]
  have : (1 : ℚ) / 100 ≤ 1 / n := by
    apply one_div_le_one_div_of_le hnq
    exact_mod_cast h100
  linarith

theorem reset_mem_bounds (n : ℕ) (q : ℚ)
    (hq : q ∈ (List.range (n - 1)).map (fun i : ℕ => ((i : ℚ) + 1) / (n : ℚ))) :
    0 < q ∧ q < 1 := by
  rw [List.mem_map] at hq
  obtain ⟨i, hi, rfl⟩ := hq
  rw [List.mem_range] at hi
  have hn : 2 ≤ n := by omega
  have hnq : (0 : ℚ) < (n : ℚ) := by positivity
  constructor
  · positivity
  · rw [div_lt_one hnq]
    have : (i : ℚ) + 1 < (n : ℚ) := by
      have : (i : ℚ) < (n : ℚ) - 1 := by
        have h2 : (i : ℚ) < ((n - 1 : ℕ) : ℚ) := by exact_mod_cast hi
        have h3 : ((n - 1 : ℕ) : ℚ) = (n : ℚ) - 1 := by
          push_cast [Nat.cast_sub (by omega : 1 ≤ n)]
          ring
        linarith [h3 ▸ h2]
      linarith
    linarith

/-! ## Raster enumeration of the rebuilt frame list -/

theorem rasterLength {β : Type} (g : ℕ → ℕ → β) (m n : ℕ) :
    ((List.range m).flatMap (fun r => (List.range n).map (g r))).length = m * n := by
  induction m with
  | zero => simp
  | succ k ih =>
    rw [List.range_succ, List.flatMap_append]
    simp only [List.length_append, ih]
    simp [Nat.succ_mul]

theorem rebuildFrames_length (d : Dividers) (w ht : ℚ) (prev : List FrameConfig) :
    (rebuildFrames d w ht prev).length = (d.h.length + 1) * (d.v.length + 1) := by
  unfold rebuildFrames
  rw [rasterLength]
  simp [splitPoints]

/-! ## C6: resize clamps and rebuilds evenly spaced dividers -/

/-- C6: a resize request first clamps the value into `[1, 20]`, then rebuilds
both divider sequences to the evenly spaced fractions; for the resulting grid
R, C the divider arrays have exactly C-1 and R-1 entries, each strictly inside
(0,1) and separated by at least 0.01, and the derived raster frame list has
exactly R * C frames. -/
theorem gridResize_spec (s : AppState) (field : GridField) (val : ℤ)
    (img : ImageInfo) (himg : s.image = some img) (R C : ℕ)
    (hrows1 : 1 ≤ s.grid.rows) (hrows20 : s.grid.rows ≤ 20)
    (hcols1 : 1 ≤ s.grid.cols) (hcols20 : s.grid.cols ≤ 20)
    (hgrid : (handleGridCountChange s field val).grid = { rows := R, cols := C }) :
    (field = GridField.rows → R = (max 1 (min 20 val)).toNat ∧ C = s.grid.cols) ∧
    (field = GridField.cols → C = (max 1 (min 20 val)).toNat ∧ R = s.grid.rows) ∧
    (1 ≤ R ∧ R ≤ 20 ∧ 1 ≤ C ∧ C ≤ 20) ∧
    (handleGridCountChange s field val).dividers.v =
      (List.range (C - 1)).map (fun i : ℕ => ((i : ℚ) + 1) / (C : ℚ)) ∧
    (handleGridCountChange s field val).dividers.h =
      (List.range (R - 1)).map (fun i : ℕ => ((i : ℚ) + 1) / (R : ℚ)) ∧
    (handleGridCountChange s field val).dividers.v.length = C - 1 ∧
    (handleGridCountChange s field val).dividers.h.length = R - 1 ∧
    (∀ q ∈ (handleGridCountChange s field val).dividers.v, 0 < q ∧ q < 1) ∧
    (∀ q ∈ (handleGridCountChange s field val).dividers.h, 0 < q ∧ q < 1) ∧
    SepOK (handleGridCountChange s field val).dividers.v ∧
    SepOK (handleGridCountChange s field val).dividers.h ∧
    (calculateFrames (handleGridCountChange s field val)).frames.length = R * C := by
  have hclamp1 : 1 ≤ (max 1 (min 20 val)).toNat := by omega
  have hclamp20 : (max 1 (min 20 val)).toNat ≤ 20 := by omega
  have hRC : (field = GridField.rows →
        R = (max 1 (min 20 val)).toNat ∧ C = s.grid.cols) ∧
      (field = GridField.cols →
        C = (max 1 (min 20 val)).toNat ∧ R = s.grid.rows) := by
    cases field <;>
      simp only [handleGridCountChange, GridDimensions.mk.injEq] at hgrid <;>
      constructor <;> intro hf <;> first
        | exact ⟨hgrid.1.symm, hgrid.2.symm⟩
        | exact ⟨hgrid.2.symm, hgrid.1.symm⟩
        | exact absurd hf (by simp)
  have hbounds : 1 ≤ R ∧ R ≤ 20 ∧ 1 ≤ C ∧ C ≤ 20 := by
    cases field
    · obtain ⟨h1, h2⟩ := hRC.1 rfl
      omega
    · obtain ⟨h1, h2⟩ := hRC.2 rfl
      omega
  have hdiv : (handleGridCountChange s field val).dividers = resetDividers R C := by
    cases field <;>
      simp only [handleGridCountChange, GridDimensions.mk.injEq] at hgrid ⊢ <;>
      rw [hgrid.1, hgrid.2]
  refine ⟨hRC.1, hRC.2, hbounds, ?_, ?_, ?_, ?_, ?_, ?_, ?_, ?_, ?_⟩
  · rw [hdiv]; rfl
  · rw [hdiv]; rfl
  · rw [hdiv]; simp [resetDividers]
  · rw [hdiv]; simp [resetDividers]
  · rw [hdiv]
    intro q hq
    exact reset_mem_bounds C q hq
  · rw [hdiv]
    intro q hq
    exact reset_mem_bounds R q hq
  · rw [hdiv]
    exact sepOK_reset C hbounds.2.2.1 (by omega)
  · rw [hdiv]
    exact sepOK_reset R hbounds.1 (by omega)
  · have himg2 : (handleGridCountChange s field val).image = some img := by
      cases field <;> simpa [handleGridCountChange] using himg
    unfold calculateFrames
    rw [himg2]
    simp only
    rw [rebuildFrames_length, hdiv]
    simp only [resetDividers]
    simp only [List.length_map, List.length_range]
    have : R - 1 + 1 = R := by omega
    rw [this]
    have : C - 1 + 1 = C := by omega
    rw [this]

/-- Witness for the resize claim: changing the column count to 5 on the
sample image state yields 4 vertical dividers and 15 derived frames. -/
theorem gridResize_witness :
    (handleGridCountChange stateImg GridField.cols 5).dividers.v.length = 4 ∧
    (calculateFrames (handleGridCountChange stateImg GridField.cols 5)).frames.length = 15 := by
  have h := gridResize_spec stateImg GridField.cols 5 { width := 300, height := 300 }
    rfl 3 5 (by decide) (by decide) (by decide) (by decide) (by decide)
  exact ⟨h.2.2.2.2.2.1, h.2.2.2.2.2.2.2.2.2.2.2⟩

/-! ## C2: divider drags clamp into the neighbor gap -/

theorem dragPrevLimit_eq (arr : List ℚ) (index : ℕ) (hidx : index < arr.length) :
    (if index = 0 then (0 : ℚ) else arr.getD (index - 1) 0) =
      (paddedPoints arr).getD index 0 := by
  rcases Nat.eq_zero_or_pos index with rfl | hpos
  · rw [if_pos rfl, paddedPoints_getD_zero]
  · rw [if_neg (by omega)]
    have h1 : index - 1 + 1 = index := by omega
    rw [← paddedPoints_getD_succ arr (index - 1) (by omega), h1]

theorem dragNextLimit_eq (arr : List ℚ) (index : ℕ) (hidx : index < arr.length) :
    (if index = arr.length - 1 then (1 : ℚ) else arr.getD (index + 1) 0) =
      (paddedPoints arr).getD (index + 2) 0 := by
  rcases eq_or_ne index (arr.length - 1) with heq | hne
  · rw [if_pos heq]
    have h2 : index + 2 = arr.length + 1 := by omega
    rw [h2, paddedPoints_getD_last]
  · rw [if_neg hne]
    have h2 : index + 1 < arr.length := by omega
    rw [← paddedPoints_getD_succ arr (index + 1) h2]

theorem dragClampLine_spec (arr : List ℚ) (index : ℕ) (p : ℚ)
    (hidx : index < arr.length) (hsep : SepOK arr) :
    (if index = 0 then (0 : ℚ) else arr.getD (index - 1) 0) + 1/100 ≤
      (dragClampLine arr index p).getD index 0 ∧
    (dragClampLine arr index p).getD index 0 ≤
      (if index = arr.length - 1 then (1 : ℚ) else arr.getD (index + 1) 0) - 1/100 ∧
    SepOK (dragClampLine arr index p) := by
  have hprev := dragPrevLimit_eq arr index hidx
  have hnext := dragNextLimit_eq arr index hidx
  have g1 := hsep index (by omega)
  have g2 := hsep (index + 1) (by omega)
  have hPlen : (paddedPoints arr).length = arr.length + 2 := paddedPoints_length arr
  simp only [dragClampLine]
  set prevL := (if index = 0 then (0 : ℚ) else arr.getD (index - 1) 0) with hprevL
  set nextL := (if index = arr.length - 1 then (1 : ℚ) else arr.getD (index + 1) 0)
    with hnextL
  set np := max (prevL + 1/100) (min (nextL - 1/100) p) with hnp
  have hgap : prevL + 1/100 ≤ nextL - 1/100 := by
    rw [hprev, hnext]
    linarith
  have hb1 : prevL + 1/100 ≤ np := le_max_left _ _
  have hb2 : np ≤ nextL - 1/100 := max_le hgap (min_le_left _ _)
  rw [setGetD arr index index _ hidx, if_pos rfl]
  refine ⟨hb1, hb2, ?_⟩
  intro i hi
  rw [List.length_set] at hi
  rw [paddedPoints_set arr index _ hidx]
  have hiP : i < (paddedPoints arr).length := by rw [hPlen]; omega
  have hi1P : i + 1 < (paddedPoints arr).length := by rw [hPlen]; omega
  rw [setGetD _ _ _ _ hiP, setGetD _ _ _ _ hi1P]
  rcases eq_or_ne (index + 1) i with heqi | hnei
  · rw [if_pos heqi, if_neg (by omega)]
    have hup : (paddedPoints arr).getD (i + 1) 0 =
        (paddedPoints arr).getD (index + 2) 0 := by rw [← heqi]
    rw [hup, ← hnext]
    linarith
  · rw [if_neg hnei]
    rcases eq_or_ne (index + 1) (i + 1) with heqi1 | hnei1
    · rw [if_pos heqi1]
      have hieq : i = index := by omega
      subst hieq
      rw [← hprev]
      linarith
    · rw [if_neg hnei1]
      exact hsep i (by omega)

/-- C2: for every divider drag update on either axis and every proposed
pointer position, the written position lands between the adjacent divider (or
0/1 boundary) plus 0.01 and the next one minus 0.01; the update is total (pure
clamping, no error path), both sequences keep the 0.01 separation invariant
and stay strictly increasing, and every resize also establishes the
invariant. -/
theorem dividerDrag_bounds (s : AppState) (t : DividerTarget) (x y cw ch : ℚ)
    (ht : s.dragTarget = some t)
    (hsepv : SepOK s.dividers.v) (hseph : SepOK s.dividers.h)
    (hidxv : t.axis = DividerAxis.v → t.index < s.dividers.v.length)
    (hidxh : t.axis = DividerAxis.h → t.index < s.dividers.h.length)
    (hgr1 : 1 ≤ s.grid.rows) (hgr20 : s.grid.rows ≤ 20)
    (hgc1 : 1 ≤ s.grid.cols) (hgc20 : s.grid.cols ≤ 20) :
    (t.axis = DividerAxis.v →
      (handleMouseMove s x y cw ch).dividers.v =
        dragClampLine s.dividers.v t.index (x / cw) ∧
      (handleMouseMove s x y cw ch).dividers.h = s.dividers.h ∧
      (if t.index = 0 then (0 : ℚ) else s.dividers.v.getD (t.index - 1) 0) + 1/100 ≤
        (handleMouseMove s x y cw ch).dividers.v.getD t.index 0 ∧
      (handleMouseMove s x y cw ch).dividers.v.getD t.index 0 ≤
        (if t.index = s.dividers.v.length - 1 then (1 : ℚ)
          else s.dividers.v.getD (t.index + 1) 0) - 1/100) ∧
    (t.axis = DividerAxis.h →
      (handleMouseMove s x y cw ch).dividers.h =
        dragClampLine s.dividers.h t.index (y / ch) ∧
      (handleMouseMove s x y cw ch).dividers.v = s.dividers.v ∧
      (if t.index = 0 then (0 : ℚ) else s.dividers.h.getD (t.index - 1) 0) + 1/100 ≤
        (handleMouseMove s x y cw ch).dividers.h.getD t.index 0 ∧
      (handleMouseMove s x y cw ch).dividers.h.getD t.index 0 ≤
        (if t.index = s.dividers.h.length - 1 then (1 : ℚ)
          else s.dividers.h.getD (t.index + 1) 0) - 1/100) ∧
    SepOK (handleMouseMove s x y cw ch).dividers.v ∧
    SepOK (handleMouseMove s x y cw ch).dividers.h ∧
    StrictAscent (handleMouseMove s x y cw ch).dividers.v ∧
    StrictAscent (handleMouseMove s x y cw ch).dividers.h ∧
    (∀ field val, SepOK (handleGridCountChange s field val).dividers.v ∧
      SepOK (handleGridCountChange s field val).dividers.h ∧
      StrictAscent (handleGridCountChange s field val).dividers.v ∧
      StrictAscent (handleGridCountChange s field val).dividers.h) := by
  have hreset : ∀ field val, SepOK (handleGridCountChange s field val).dividers.v ∧
      SepOK (handleGridCountChange s field val).dividers.h ∧
      StrictAscent (handleGridCountChange s field val).dividers.v ∧
      StrictAscent (handleGridCountChange s field val).dividers.h := by
    intro field val
    have hc1 : 1 ≤ (max 1 (min 20 val)).toNat := by omega
    have hc20 : (max 1 (min 20 val)).toNat ≤ 20 := by omega
    cases field <;>
      simp only [handleGridCountChange, resetDividers] <;>
      refine ⟨sepOK_reset _ (by omega) (by omega), sepOK_reset _ (by omega) (by omega),
        sepOK_strictAscent (sepOK_reset _ (by omega) (by omega)),
        sepOK_strictAscent (sepOK_reset _ (by omega) (by omega))⟩
  obtain ⟨axis, index⟩ := t
  cases axis
  · have hidx := hidxv rfl
    have hspec := dragClampLine_spec s.dividers.v index (x / cw) hidx hsepv
    have hmove : handleMouseMove s x y cw ch =
        { s with dividers :=
            { s.dividers with v := dragClampLine s.dividers.v index (x / cw) } } := by
      unfold handleMouseMove
      rw [ht]
    rw [hmove]
    refine ⟨?_, ?_, ?_, ?_, ?_, ?_, hreset⟩
    · intro hx
      exact ⟨rfl, rfl, hspec.1, hspec.2.1⟩
    · intro hcon
      simp at hcon
    · exact hspec.2.2
    · exact hseph
    · exact sepOK_strictAscent hspec.2.2
    · exact sepOK_strictAscent hseph
  · have hidx := hidxh rfl
    have hspec := dragClampLine_spec s.dividers.h index (y / ch) hidx hseph
    have hmove : handleMouseMove s x y cw ch =
        { s with dividers :=
            { s.dividers with h := dragClampLine s.dividers.h index (y / ch) } } := by
      unfold handleMouseMove
      rw [ht]
    rw [hmove]
    refine ⟨?_, ?_, ?_, ?_, ?_, ?_, hreset⟩
    · intro hcon
      simp at hcon
    · intro hx
      exact ⟨rfl, rfl, hspec.1, hspec.2.1⟩
    · exact hsepv
    · exact hspec.2.2
    · exact sepOK_strictAscent hsepv
    · exact sepOK_strictAscent hspec.2.2

theorem sepOK_initList : SepOK [(0.33 : ℚ), 0.66] := by
  intro i hi
  simp only [List.length_cons, List.length_nil] at hi
  interval_cases i <;>
    norm_num [paddedPoints, List.getD_cons_zero, List.getD_cons_succ]

/-- Witness for the drag claim: dragging the first vertical divider of the
initial state to pointer x = 500 on a 1000-pixel canvas keeps both divider
sequences separated by at least 0.01. -/
theorem dividerDrag_witness :
    SepOK (handleMouseMove stateDrag 500 0 1000 1000).dividers.v ∧
    SepOK (handleMouseMove stateDrag 500 0 1000 1000).dividers.h := by
  have h := dividerDrag_bounds stateDrag { axis := DividerAxis.v, index := 0 }
    500 0 1000 1000 rfl sepOK_initList sepOK_initList
    (fun _ => by decide) (fun hcon => by simp at hcon)
    (by decide) (by decide) (by decide) (by decide)
  exact ⟨h.2.2.1, h.2.2.2.1⟩

theorem rasterGetD {β : Type} [Inhabited β] (g : ℕ → ℕ → β) (m n r c : ℕ)
    (hr : r < m) (hc : c < n) :
    ((List.range m).flatMap (fun i => (List.range n).map (g i))).getD
      (r * n + c) default = g r c := by
  induction m with
  | zero => omega
  | succ k ih =>
    rw [List.range_succ, List.flatMap_append]
    rcases Nat.lt_or_ge r k with h | h
    · rw [List.getD_eq_getElem?_getD, List.getElem?_append_left, ← List.getD_eq_getElem?_getD]
      · exact ih h
      · rw [rasterLength]
        have h2 : (r + 1) * n ≤ k * n := Nat.mul_le_mul_right n (by omega)
        have h3 : r * n + n = (r + 1) * n := by ring
        omega
    · have hrk : r = k := by omega
      subst hrk
      rw [List.getD_eq_getElem?_getD,
        List.getElem?_append_right (by rw [rasterLength]; omega)]
      rw [rasterLength]
      simp only [List.flatMap_cons, List.flatMap_nil, List.append_nil,
        Nat.add_sub_cancel_left, List.getElem?_map, List.getElem?_range hc]
      rfl

theorem splitPoints_getD (ds : List ℚ) (size : ℚ) (i : ℕ) (hi : i < ds.length + 2) :
    (splitPoints ds size).getD i 0 = (paddedPoints ds).getD i 0 * size := by
  have hP : i < (paddedPoints ds).length := by rw [paddedPoints_length]; omega
  have h1 : splitPoints ds size = (paddedPoints ds).map (fun p => p * size) := rfl
  rw [h1, List.getD_eq_getElem?_getD, List.getD_eq_getElem?_getD,
    List.getElem?_map, List.getElem?_eq_getElem hP]
  rfl

/-! ## C1: the frame-list rebuild -/

/-- C1: a rebuild is a no-op while the image is not loaded; otherwise the
selection is cleared and the frame list is the raster-ordered (row-major)
grid of rectangles cut at the divider positions (0 and 1 boundaries included)
scaled by the image dimensions, each frame's id being its raster position; a
cell whose (row, col) existed before keeps that frame's offsetX, offsetY,
active and sequenceOrder, and a new cell gets offsets 0, active true and
sequenceOrder equal to its id. -/
theorem calculateFrames_spec (s : AppState) :
    (s.image = none → calculateFrames s = s) ∧
    (∀ img, s.image = some img →
      (calculateFrames s).selectedFrameIds = [] ∧
      (calculateFrames s).frames.length =
        (s.dividers.h.length + 1) * (s.dividers.v.length + 1) ∧
      (∀ r c, r < s.dividers.h.length + 1 → c < s.dividers.v.length + 1 →
        (calculateFrames s).frames.getD
            (r * (s.dividers.v.length + 1) + c) default =
          (match s.frames.find? (fun p => p.row == r && p.col == c) with
           | some e =>
             { id := r * (s.dividers.v.length + 1) + c, row := r, col := c,
               x := (paddedPoints s.dividers.v).getD c 0 * img.width,
               y := (paddedPoints s.dividers.h).getD r 0 * img.height,
               width := ((paddedPoints s.dividers.v).getD (c + 1) 0 -
                 (paddedPoints s.dividers.v).getD c 0) * img.width,
               height := ((paddedPoints s.dividers.h).getD (r + 1) 0 -
                 (paddedPoints s.dividers.h).getD r 0) * img.height,
               offsetX := e.offsetX, offsetY := e.offsetY, active := e.active,
               sequenceOrder := e.sequenceOrder }
           | none =>
             { id := r * (s.dividers.v.length + 1) + c, row := r, col := c,
               x := (paddedPoints s.dividers.v).getD c 0 * img.width,
               y := (paddedPoints s.dividers.h).getD r 0 * img.height,
               width := ((paddedPoints s.dividers.v).getD (c + 1) 0 -
                 (paddedPoints s.dividers.v).getD c 0) * img.width,
               height := ((paddedPoints s.dividers.h).getD (r + 1) 0 -
                 (paddedPoints s.dividers.h).getD r 0) * img.height,
               offsetX := 0, offsetY := 0, active := true,
               sequenceOrder :=
                 ((r * (s.dividers.v.length + 1) + c : ℕ) : ℤ) }))) := by
  constructor
  · intro h
    unfold calculateFrames
    rw [h]
  · intro img himg
    have hcalc : calculateFrames s =
        { s with frames := rebuildFrames s.dividers img.width img.height s.frames,
                 selectedFrameIds := [] } := by
      unfold calculateFrames
      rw [himg]
    rw [hcalc]
    refine ⟨rfl, rebuildFrames_length _ _ _ _, ?_⟩
    intro r c hr hc
    have hxlen : (splitPoints s.dividers.v img.width).length - 1 =
        s.dividers.v.length + 1 := by simp [splitPoints]
    have hylen : (splitPoints s.dividers.h img.height).length - 1 =
        s.dividers.h.length + 1 := by simp [splitPoints]
    have hrb : rebuildFrames s.dividers img.width img.height s.frames =
        (List.range (s.dividers.h.length + 1)).flatMap (fun i =>
          (List.range (s.dividers.v.length + 1)).map (fun c =>
            frameAt (splitPoints s.dividers.v img.width)
              (splitPoints s.dividers.h img.height) s.frames
              (s.dividers.v.length + 1) i c)) := by
      simp only [rebuildFrames]
      rw [hxlen, hylen]
    simp only [hrb]
    rw [rasterGetD _ _ _ _ _ hr hc]
    have hgx1 := splitPoints_getD s.dividers.v img.width c (by omega)
    have hgx2 := splitPoints_getD s.dividers.v img.width (c + 1) (by omega)
    have hgy1 := splitPoints_getD s.dividers.h img.height r (by omega)
    have hgy2 := splitPoints_getD s.dividers.h img.height (r + 1) (by omega)
    cases hfind : s.frames.find? (fun p => p.row == r && p.col == c) with
    | some e =>
      simp only [frameAt, hfind, FrameConfig.mk.injEq, hgx1, hgx2, hgy1, hgy2,
        true_and, and_true]
      exact ⟨by ring, by ring⟩
    | none =>
      simp only [frameAt, hfind, FrameConfig.mk.injEq, hgx1, hgx2, hgy1, hgy2,
        true_and, and_true]
      exact ⟨by ring, by ring⟩

/-- Witness for the rebuild claim: on the sample image state the rebuild
clears the selection and produces the 3 by 3 raster list. -/
theorem calculateFrames_witness :
    (calculateFrames stateImg).selectedFrameIds = [] ∧
    (calculateFrames stateImg).frames.length = 9 := by
  have h := (calculateFrames_spec stateImg).2 { width := 300, height := 300 } rfl
  exact ⟨h.1, h.2.1⟩

/-! ## C10: the initial dividers are not the even 3 by 3 split -/

theorem initialPadded_getD :
    (paddedPoints initialDividers.v).getD 0 0 = 0 ∧
    (paddedPoints initialDividers.v).getD 1 0 = 33/100 ∧
    (paddedPoints initialDividers.v).getD 2 0 = 66/100 ∧
    (paddedPoints initialDividers.v).getD 3 0 = 1 := by
  refine ⟨rfl, ?_, ?_, ?_⟩ <;>
    norm_num [paddedPoints, initialDividers, List.getD_cons_succ,
      List.getD_cons_zero]

theorem rebuildInitial_getD (w ht : ℚ) (r c : ℕ) (hr : r < 3) (hc : c < 3) :
    (rebuildFrames initialDividers w ht []).getD (r * 3 + c) default =
      frameAt (splitPoints initialDividers.v w) (splitPoints initialDividers.h ht)
        [] 3 r c := by
  have hxlen : (splitPoints initialDividers.v w).length - 1 = 3 := by
    simp [splitPoints, initialDividers]
  have hylen : (splitPoints initialDividers.h ht).length - 1 = 3 := by
    simp [splitPoints, initialDividers]
  have hrb : rebuildFrames initialDividers w ht [] =
      (List.range 3).flatMap (fun i => (List.range 3).map (fun c =>
        frameAt (splitPoints initialDividers.v w)
          (splitPoints initialDividers.h ht) [] 3 i c)) := by
    simp only [rebuildFrames]
    rw [hxlen, hylen]
  rw [hrb, rasterGetD _ _ _ _ _ hr hc]

/-- C10: the initial divider state v = h = [0.33, 0.66] differs from the
even split produced by resetDividers 3 3, yet satisfies the 0.01 minimum-gap
invariant; consequently the frames derived from it on any positive image are
not all the same size: the first column and row span 0.33 of the image while
the last span 0.34. -/
theorem initialDividers_uneven :
    initialDividers.v ≠ (resetDividers 3 3).v ∧
    initialDividers.h ≠ (resetDividers 3 3).h ∧
    SepOK initialDividers.v ∧ SepOK initialDividers.h ∧
    (∀ w ht : ℚ, 0 < w → 0 < ht →
      ((rebuildFrames initialDividers w ht []).getD 0 default).width =
        33/100 * w ∧
      ((rebuildFrames initialDividers w ht []).getD 2 default).width =
        34/100 * w ∧
      ((rebuildFrames initialDividers w ht []).getD 0 default).width ≠
        ((rebuildFrames initialDividers w ht []).getD 2 default).width ∧
      ((rebuildFrames initialDividers w ht []).getD 0 default).height =
        33/100 * ht ∧
      ((rebuildFrames initialDividers w ht []).getD 6 default).height =
        34/100 * ht ∧
      ((rebuildFrames initialDividers w ht []).getD 0 default).height ≠
        ((rebuildFrames initialDividers w ht []).getD 6 default).height) := by
  obtain ⟨hp0, hp1, hp2, hp3⟩ := initialPadded_getD
  have hne : initialDividers.v ≠ (resetDividers 3 3).v := by
    simp only [initialDividers, resetDividers]
    intro hcon
    norm_num [List.range_succ, List.cons.injEq] at hcon
  refine ⟨hne, hne, sepOK_initList, sepOK_initList, ?_⟩
  intro w ht hw hht
  have e0 : (rebuildFrames initialDividers w ht []).getD 0 default =
      frameAt (splitPoints initialDividers.v w)
        (splitPoints initialDividers.h ht) [] 3 0 0 :=
    rebuildInitial_getD w ht 0 0 (by omega) (by omega)
  have e2 : (rebuildFrames initialDividers w ht []).getD 2 default =
      frameAt (splitPoints initialDividers.v w)
        (splitPoints initialDividers.h ht) [] 3 0 2 :=
    rebuildInitial_getD w ht 0 2 (by omega) (by omega)
  have e6 : (rebuildFrames initialDividers w ht []).getD 6 default =
      frameAt (splitPoints initialDividers.v w)
        (splitPoints initialDividers.h ht) [] 3 2 0 :=
    rebuildInitial_getD w ht 2 0 (by omega) (by omega)
  have hsx0 := splitPoints_getD initialDividers.v w 0 (by simp [initialDividers])
  have hsx1 := splitPoints_getD initialDividers.v w 1 (by simp [initialDividers])
  have hsx2 := splitPoints_getD initialDividers.v w 2 (by simp [initialDividers])
  have hsx3 := splitPoints_getD initialDividers.v w 3 (by simp [initialDividers])
  have hsy0 := splitPoints_getD initialDividers.h ht 0 (by simp [initialDividers])
  have hsy1 := splitPoints_getD initialDividers.h ht 1 (by simp [initialDividers])
  have hsy2 := splitPoints_getD initialDividers.h ht 2 (by simp [initialDividers])
  have hsy3 := splitPoints_getD initialDividers.h ht 3 (by simp [initialDividers])
  have hw0 : ((rebuildFrames initialDividers w ht []).getD 0 default).width =
      33/100 * w := by
    rw [e0]
    simp only [frameAt, List.find?_nil]
    rw [hsx1, hsx0, hp1, hp0]
    ring
  have hw2 : ((rebuildFrames initialDividers w ht []).getD 2 default).width =
      34/100 * w := by
    rw [e2]
    simp only [frameAt, List.find?_nil]
    rw [hsx3, hsx2, hp3, hp2]
    ring
  have hh0 : ((rebuildFrames initialDividers w ht []).getD 0 default).height =
      33/100 * ht := by
    rw [e0]
    simp only [frameAt, List.find?_nil]
    rw [hsy1, hsy0]
    have : (paddedPoints initialDividers.h).getD 1 0 = 33/100 := hp1
    rw [this]
    have : (paddedPoints initialDividers.h).getD 0 0 = 0 := hp0
    rw [this]
    ring
  have hh6 : ((rebuildFrames initialDividers w ht []).getD 6 default).height =
      34/100 * ht := by
    rw [e6]
    simp only [frameAt, List.find?_nil]
    rw [hsy3, hsy2]
    have : (paddedPoints initialDividers.h).getD 3 0 = 1 := hp3
    rw [this]
    have : (paddedPoints initialDividers.h).getD 2 0 = 66/100 := hp2
    rw [this]
    ring
  refine ⟨hw0, hw2, ?_, hh0, hh6, ?_⟩
  · rw [hw0, hw2]
    intro heq
    have := mul_right_cancel₀ (ne_of_gt hw) heq
    norm_num at this
  · rw [hh0, hh6]
    intro heq
    have := mul_right_cancel₀ (ne_of_gt hht) heq
    norm_num at this

/-- Witness for the uneven-initial-grid claim at a 100 by 100 image: the first
column is 33 pixels wide and the last 34. -/
theorem initialDividers_uneven_witness :
    ((rebuildFrames initialDividers 100 100 []).getD 0 default).width = 33 ∧
    ((rebuildFrames initialDividers 100 100 []).getD 2 default).width = 34 := by
  have h := initialDividers_uneven.2.2.2.2 100 100 (by norm_num) (by norm_num)
  constructor
  · rw [h.1]
    norm_num
  · rw [h.2.1]
    norm_num

/-! ## C4: a short gesture is a click on the first containing frame -/

theorem find?_cases {α : Type} [Inhabited α] (p : α → Bool) (l : List α) :
    (l.find? p = none ∧ ∀ a ∈ l, ¬(p a = true)) ∨
    (∃ n, n < l.length ∧ l.find? p = some (l.getD n default) ∧
      p (l.getD n default) = true ∧
      ∀ m, m < n → ¬(p (l.getD m default) = true)) := by
  induction l with
  | nil => exact Or.inl ⟨rfl, by simp⟩
  | cons a l ih =>
    cases hpa : p a with
    | true =>
      refine Or.inr ⟨0, by simp, ?_, ?_, by omega⟩
      · simp [List.find?_cons_of_pos _ hpa]
      · simpa using hpa
    | false =>
      rcases ih with ⟨hn, hall⟩ | ⟨n, hlen, hfeq, hp, hmin⟩
      · refine Or.inl ⟨?_, ?_⟩
        · rw [List.find?_cons_of_neg _ (by simp [hpa]), hn]
        · intro b hb
          rcases List.mem_cons.mp hb with rfl | hb
          · simp [hpa]
          · exact hall b hb
      · refine Or.inr ⟨n + 1, by simpa using hlen, ?_, ?_, ?_⟩
        · rw [List.find?_cons_of_neg _ (by simp [hpa])]
          simpa [List.getD_cons_succ] using hfeq
        · simpa [List.getD_cons_succ] using hp
        · intro m hm
          cases m with
          | zero => simp [hpa]
          | succ k =>
            simpa [List.getD_cons_succ] using hmin k (by omega)

theorem containsB_iff (x y : ℚ) (f : FrameConfig) :
    ((decide (x ≥ f.x) && decide (x < f.x + f.width) &&
      decide (y ≥ f.y) && decide (y < f.y + f.height)) = true) ↔
    (x ≥ f.x ∧ x < f.x + f.width ∧ y ≥ f.y ∧ y < f.y + f.height) := by
  simp [Bool.and_eq_true, decide_eq_true_eq, and_assoc]

/-- C4: a pointer-up whose start-to-end distance is under 5 px acts as a
click: the selection becomes the singleton id of the first frame in list
(raster) order whose rectangle contains the pointer under half-open
containment, or the empty set when no frame contains it. -/
theorem click_selects_first_containing (s : AppState) (x y : ℚ)
    (box : SelectionBox) (hd : s.dragTarget = none)
    (hsel : s.isSelecting = true) (hbox : s.selectionBox = some box)
    (hdist : distSq x y box.startX box.startY < 25) :
    ((∀ f ∈ s.frames,
        ¬(x ≥ f.x ∧ x < f.x + f.width ∧ y ≥ f.y ∧ y < f.y + f.height)) ∧
      (handleMouseUp s x y).selectedFrameIds = []) ∨
    (∃ n, n < s.frames.length ∧
      (x ≥ (s.frames.getD n default).x ∧
       x < (s.frames.getD n default).x + (s.frames.getD n default).width ∧
       y ≥ (s.frames.getD n default).y ∧
       y < (s.frames.getD n default).y + (s.frames.getD n default).height) ∧
      (∀ m, m < n → ¬(x ≥ (s.frames.getD m default).x ∧
        x < (s.frames.getD m default).x + (s.frames.getD m default).width ∧
        y ≥ (s.frames.getD m default).y ∧
        y < (s.frames.getD m default).y + (s.frames.getD m default).height)) ∧
      (handleMouseUp s x y).selectedFrameIds =
        [(s.frames.getD n default).id]) := by
  rcases find?_cases (fun f => decide (x ≥ f.x) && decide (x < f.x + f.width) &&
      decide (y ≥ f.y) && decide (y < f.y + f.height)) s.frames with
    ⟨hfind, hall⟩ | ⟨n, hlen, hfeq, hp, hmin⟩
  · left
    constructor
    · intro f hf
      have := hall f hf
      rwa [containsB_iff] at this
    · simp only [handleMouseUp, hd, hsel, hbox, if_pos hdist, hfind]
  · right
    refine ⟨n, hlen, (containsB_iff x y _).mp hp, ?_, ?_⟩
    · intro m hm
      have := hmin m hm
      rwa [containsB_iff] at this
    · simp only [handleMouseUp, hd, hsel, hbox, if_pos hdist, hfeq]

/-- Witness for the click claim: a zero-movement gesture at (150, 150) over
the 3 by 3 sample grid selects exactly the middle frame, id 4. -/
theorem click_witness :
    (handleMouseUp stateClick 150 150).selectedFrameIds = [4] := by
  rcases click_selects_first_containing stateClick 150 150 clickBox
      rfl rfl rfl (by norm_num [distSq, clickBox]) with
    ⟨hall, hempty⟩ | ⟨n, hn, hcont, hmin, hsel⟩
  · exfalso
    refine absurd (hall (stateClick.frames.getD 4 default) ?_) ?_
    · norm_num [stateClick, gridFrames3, List.getD_cons_succ, List.getD_cons_zero]
    · norm_num [stateClick, gridFrames3, List.getD_cons_succ, List.getD_cons_zero]
  · have hlen : stateClick.frames.length = 9 := by
      norm_num [stateClick, gridFrames3]
    rw [hlen] at hn
    have hn4 : n = 4 := by
      by_contra hne
      interval_cases n <;>
        norm_num [stateClick, gridFrames3, List.getD_cons_succ,
          List.getD_cons_zero] at hcont hne ⊢
    subst hn4
    rw [hsel]
    norm_num [stateClick, gridFrames3, List.getD_cons_succ, List.getD_cons_zero]

/-! ## C3: marquee selection -/

/-- C3: a pointer-up ending a marquee of at least 5 px selects exactly the
frames whose rectangle intersects the normalized marquee box; the
intersection predicate holds unless one rectangle is strictly to the left,
right, above or below the other (touching edges intersect); and the result is
the same whichever corner was the drag start. -/
theorem marquee_selects_intersecting (s : AppState) (x y : ℚ)
    (box : SelectionBox) (hd : s.dragTarget = none)
    (hsel : s.isSelecting = true) (hbox : s.selectionBox = some box)
    (hdist : 25 ≤ distSq x y box.startX box.startY) :
    (handleMouseUp s x y).selectedFrameIds =
      (s.frames.filter
        (fun f => isIntersecting (getSelectionRect box) (frameRect f))).map
        (fun f => f.id) ∧
    (∀ r1 r2 : Rect, isIntersecting r1 r2 = true ↔
      ¬(r2.x > r1.x + r1.width ∨ r2.x + r2.width < r1.x ∨
        r2.y > r1.y + r1.height ∨ r2.y + r2.height < r1.y)) ∧
    (x = box.currentX → y = box.currentY →
      (handleMouseUp s x y).selectedFrameIds =
        (handleMouseUp { s with selectionBox := some (swapCorners box) }
          box.startX box.startY).selectedFrameIds) := by
  have ha : (handleMouseUp s x y).selectedFrameIds =
      (s.frames.filter
        (fun f => isIntersecting (getSelectionRect box) (frameRect f))).map
        (fun f => f.id) := by
    simp only [handleMouseUp, hd, hsel, hbox, if_neg (not_lt.mpr hdist)]
  refine ⟨ha, ?_, ?_⟩
  · intro r1 r2
    simp only [isIntersecting, Bool.not_eq_true', Bool.or_eq_false_iff,
      decide_eq_false_iff_not, not_or]
    tauto
  · intro hx hy
    subst hx
    subst hy
    have hrect : getSelectionRect (swapCorners box) = getSelectionRect box := by
      simp [getSelectionRect, swapCorners, Rect.mk.injEq]
      exact ⟨min_comm _ _, min_comm _ _, abs_sub_comm _ _, abs_sub_comm _ _⟩
    have hdist2 : 25 ≤ distSq box.startX box.startY box.currentX box.currentY := by
      have heq : distSq box.startX box.startY box.currentX box.currentY =
          distSq box.currentX box.currentY box.startX box.startY := by
        simp only [distSq]
        ring
      rw [heq]
      exact hdist
    rw [ha]
    have hb : (handleMouseUp { s with selectionBox := some (swapCorners box) }
        box.startX box.startY).selectedFrameIds =
        (s.frames.filter
          (fun f => isIntersecting (getSelectionRect (swapCorners box))
            (frameRect f))).map (fun f => f.id) := by
      simp only [handleMouseUp, hd, hsel, swapCorners,
        if_neg (not_lt.mpr hdist2)]
    rw [hb, hrect]

/-- Witness for the marquee claim: a marquee spanning the two left columns of
the 3 by 3 sample grid selects exactly the 6 frames of those columns, from
either drag direction. -/
theorem marquee_witness :
    (handleMouseUp stateMarq 199 300).selectedFrameIds = [0, 1, 3, 4, 6, 7] ∧
    (handleMouseUp { stateMarq with selectionBox := some (swapCorners marqBox) }
      0 0).selectedFrameIds = [0, 1, 3, 4, 6, 7] := by
  have h := marquee_selects_intersecting stateMarq 199 300 marqBox
    rfl rfl rfl (by norm_num [distSq, marqBox])
  have h1 : (handleMouseUp stateMarq 199 300).selectedFrameIds =
      [0, 1, 3, 4, 6, 7] := by
    rw [h.1]
    norm_num [stateMarq, gridFrames3, marqBox, isIntersecting, getSelectionRect,
      frameRect, List.filter]
  refine ⟨h1, ?_⟩
  have h2 := h.2.2 rfl rfl
  rw [h1] at h2
  exact h2.symm

/-! ## C5: sequence reordering machinery -/

instance : IsTotal FrameConfig (fun a b => a.sequenceOrder ≤ b.sequenceOrder) :=
  ⟨fun a b => le_total a.sequenceOrder b.sequenceOrder⟩

instance : IsTrans FrameConfig (fun a b => a.sequenceOrder ≤ b.sequenceOrder) :=
  ⟨fun _ _ _ hab hbc => le_trans hab hbc⟩

theorem keyInj {β : Type} (key : FrameConfig → β) {l : List FrameConfig}
    (hp : l.Pairwise (fun a b => key a ≠ key b)) :
    ∀ a ∈ l, ∀ b ∈ l, key a = key b → a = b := by
  induction l with
  | nil => simp
  | cons x xs ih =>
    rw [List.pairwise_cons] at hp
    intro a ha b hb hk
    rcases List.mem_cons.mp ha with rfl | ha2 <;>
      rcases List.mem_cons.mp hb with rfl | hb2
    · rfl
    · exact absurd hk (hp.1 b hb2)
    · exact absurd hk.symm (hp.1 a ha2)
    · exact ih hp.2 a ha2 b hb2 hk

theorem set_set_swap_perm {α : Type} :
    ∀ (l : List α) (i : ℕ) (a b : α), i + 1 < l.length →
      ((l.set i a).set (i + 1) b).Perm ((l.set i b).set (i + 1) a) := by
  intro l
  induction l with
  | nil =>
    intro i a b h
    simp at h
  | cons x xs ih =>
    intro i a b h
    cases i with
    | zero =>
      cases xs with
      | nil => simp at h
      | cons y ys =>
        simp only [List.set_cons_zero, List.set_cons_succ]
        exact List.Perm.swap b a ys
    | succ j =>
      simp only [List.set_cons_succ]
      exact (ih j a b (by simpa using h)).cons x

theorem strictSorted_eq {l₁ l₂ : List FrameConfig} (hp : l₁.Perm l₂)
    (h₁ : l₁.Pairwise (fun a b => a.sequenceOrder < b.sequenceOrder))
    (h₂ : l₂.Pairwise (fun a b => a.sequenceOrder < b.sequenceOrder)) :
    l₁ = l₂ := by
  haveI : IsAntisymm FrameConfig (fun a b => a.sequenceOrder < b.sequenceOrder) :=
    ⟨fun a b hab hba => absurd (hab.trans hba) (lt_irrefl _)⟩
  exact List.eq_of_perm_of_sorted hp h₁ h₂

theorem activeFrames_sorted (s : AppState) :
    List.Pairwise (fun a b : FrameConfig => a.sequenceOrder ≤ b.sequenceOrder)
      (activeFrames s) :=
  List.sorted_insertionSort _ _

theorem activeFrames_perm (s : AppState) :
    (activeFrames s).Perm (s.frames.filter (fun f => f.active)) :=
  List.perm_insertionSort _ _

theorem activeFrames_pairwise_lt (s : AppState)
    (hords : (s.frames.filter (fun f => f.active)).Pairwise
      (fun a b => a.sequenceOrder ≠ b.sequenceOrder)) :
    List.Pairwise (fun a b : FrameConfig => a.sequenceOrder < b.sequenceOrder)
      (activeFrames s) := by
  have hne : List.Pairwise
      (fun a b : FrameConfig => a.sequenceOrder ≠ b.sequenceOrder)
      (activeFrames s) :=
    ((activeFrames_perm s).pairwise_iff (fun h => h.symm)).mpr hords
  exact ((activeFrames_sorted s).and hne).imp
    (fun h => lt_of_le_of_ne h.1 h.2)

theorem moveFrameInSequence_step (s : AppState) (sid : ℕ) (A : FrameConfig)
    (i j : ℕ) (d : ℤ)
    (hsel : s.selectedFrameIds = [sid])
    (hA : s.frames.find? (fun f => f.id == sid) = some A)
    (hAact : A.active = true)
    (hi : (activeFrames s).findIdx? (fun f => f.id == sid) = some i)
    (hj : (i : ℤ) + d = (j : ℤ))
    (hjlen : j < (activeFrames s).length) :
    moveFrameInSequence s d =
      { s with frames := s.frames.map (fun f =>
          if f.id == A.id then
            { f with sequenceOrder :=
                ((activeFrames s).getD j default).sequenceOrder }
          else if f.id == ((activeFrames s).getD j default).id then
            { f with sequenceOrder := A.sequenceOrder }
          else f) } := by
  unfold moveFrameInSequence
  rw [hsel]
  simp only [List.headD_cons, List.length_cons, List.length_nil]
  rw [if_neg (by omega : ¬(0 + 1 ≠ 1)), hA]
  simp only
  rw [if_neg (by rw [hAact]; simp : ¬(A.active = false)), hi]
  simp only
  rw [if_neg (by omega : ¬((i : ℤ) + d < 0 ∨
    ((activeFrames s).length : ℤ) ≤ (i : ℤ) + d)), hj]
  rw [Int.toNat_natCast]

theorem getD_mem_of_lt {α : Type} [Inhabited α] (l : List α) (n : ℕ)
    (hn : n < l.length) : l.getD n default ∈ l := by
  rw [List.getD_eq_getElem?_getD, List.getElem?_eq_getElem hn]
  exact List.getElem_mem hn

theorem setGetD_gen {α : Type} [Inhabited α] (l : List α) (m n : ℕ) (a : α)
    (hn : n < l.length) :
    (l.set m a).getD n default = if m = n then a else l.getD n default := by
  rw [List.getD_eq_getElem?_getD, List.getD_eq_getElem?_getD,
    List.getElem?_eq_getElem (by simpa using hn), List.getElem?_eq_getElem hn]
  simp [List.getElem_set]

theorem pairwise_getD {α : Type} [Inhabited α] {R : α → α → Prop}
    {l : List α} (h : l.Pairwise R) (m n : ℕ) (hmn : m < n)
    (hn : n < l.length) :
    R (l.getD m default) (l.getD n default) := by
  rw [List.pairwise_iff_getElem] at h
  have hm : m < l.length := by omega
  have := h m n hm hn hmn
  rwa [List.getD_eq_getElem?_getD, List.getD_eq_getElem?_getD,
    List.getElem?_eq_getElem hm, List.getElem?_eq_getElem hn]

theorem pairwise_of_getD {α : Type} [Inhabited α] {R : α → α → Prop}
    {l : List α}
    (h : ∀ m n, m < n → n < l.length → R (l.getD m default) (l.getD n default)) :
    l.Pairwise R := by
  rw [List.pairwise_iff_getElem]
  intro m n hm hn hmn
  have := h m n hmn hn
  rwa [List.getD_eq_getElem?_getD, List.getD_eq_getElem?_getD,
    List.getElem?_eq_getElem hm, List.getElem?_eq_getElem hn] at this

theorem getD_eq_getElem2 {α : Type} [Inhabited α] (l : List α) (n : ℕ)
    (hn : n < l.length) : l.getD n default = l[n] := by
  rw [List.getD_eq_getElem?_getD, List.getElem?_eq_getElem hn]
  rfl

theorem activeFrames_swap (s : AppState) (sid : ℕ) (A B : FrameConfig) (i : ℕ)
    (hids : s.frames.Pairwise (fun a b => a.id ≠ b.id))
    (hords : (s.frames.filter (fun f => f.active)).Pairwise
      (fun a b => a.sequenceOrder ≠ b.sequenceOrder))
    (hA : s.frames.find? (fun f => f.id == sid) = some A)
    (hAact : A.active = true)
    (hilen : i + 1 < (activeFrames s).length)
    (hAi : (activeFrames s).getD i default = A)
    (hBi : (activeFrames s).getD (i + 1) default = B) :
    activeFrames { s with frames := s.frames.map (fun f =>
        if f.id == A.id then { f with sequenceOrder := B.sequenceOrder }
        else if f.id == B.id then { f with sequenceOrder := A.sequenceOrder }
        else f) } =
      ((activeFrames s).set i { B with sequenceOrder := A.sequenceOrder }).set
        (i + 1) { A with sequenceOrder := B.sequenceOrder } := by
  have hLlen : (activeFrames s).length =
      (s.frames.filter (fun f => f.active)).length :=
    (activeFrames_perm s).length_eq
  have hAmem : A ∈ s.frames := List.mem_of_find?_eq_some hA
  have hAfilter : A ∈ s.frames.filter (fun f => f.active) :=
    List.mem_filter.mpr ⟨hAmem, hAact⟩
  have hBL : B ∈ activeFrames s := by
    rw [← hBi]
    exact getD_mem_of_lt _ _ (by omega)
  have hBfilter : B ∈ s.frames.filter (fun f => f.active) :=
    (activeFrames_perm s).mem_iff.mp hBL
  have hBframes : B ∈ s.frames := (List.mem_filter.mp hBfilter).1
  have hBact : B.active = true := (List.mem_filter.mp hBfilter).2
  have hidsF : (s.frames.filter (fun f => f.active)).Pairwise
      (fun a b => a.id ≠ b.id) :=
    List.Pairwise.sublist (List.filter_sublist _) hids
  have hidsL : (activeFrames s).Pairwise (fun a b => a.id ≠ b.id) :=
    ((activeFrames_perm s).pairwise_iff (fun h => h.symm)).mpr hidsF
  have hABne : A.id ≠ B.id := by
    have := pairwise_getD hidsL i (i + 1) (by omega) hilen
    rwa [hAi, hBi] at this
  have idinj := keyInj (fun f => f.id) hids
  have seqinjF := keyInj (fun f => f.sequenceOrder) hords
  set g : FrameConfig → FrameConfig := fun f =>
    if f.id == A.id then { f with sequenceOrder := B.sequenceOrder }
    else if f.id == B.id then { f with sequenceOrder := A.sequenceOrder }
    else f with hgdef
  have hgA : g A = { A with sequenceOrder := B.sequenceOrder } := by
    simp [hgdef]
  have hgB : g B = { B with sequenceOrder := A.sequenceOrder } := by
    simp [hgdef, Ne.symm hABne]
  have hgother : ∀ f, f.id ≠ A.id → f.id ≠ B.id → g f = f := by
    intro f h1 h2
    simp [hgdef, h1, h2]
  have hgact : ∀ f : FrameConfig, (g f).active = f.active := by
    intro f
    simp only [hgdef]
    split
    · rfl
    · split
      · rfl
      · rfl
  have hfilter2 : (s.frames.map g).filter (fun f => f.active) =
      (s.frames.filter (fun f => f.active)).map g := by
    rw [List.filter_map]
    congr 1
    apply List.filter_congr
    intro f hf
    simp only [Function.comp_apply, hgact f]
  have hidsLget : ∀ m n, m < (activeFrames s).length →
      n < (activeFrames s).length → m ≠ n →
      ((activeFrames s).getD m default).id ≠
        ((activeFrames s).getD n default).id := by
    intro m n hm hn hne
    rcases Nat.lt_or_ge m n with h | h
    · exact pairwise_getD hidsL m n h hn
    · exact (pairwise_getD hidsL n m (by omega) hm).symm
  have hmapg : (activeFrames s).map g =
      ((activeFrames s).set i { A with sequenceOrder := B.sequenceOrder }).set
        (i + 1) { B with sequenceOrder := A.sequenceOrder } := by
    apply List.ext_getElem
    · simp
    intro n h1 h2
    have hnL : n < (activeFrames s).length := by simpa using h1
    rw [List.getElem_map, List.getElem_set, List.getElem_set]
    by_cases hn2 : i + 1 = n
    · rw [if_pos hn2]
      have hBn : (activeFrames s)[n] = B := by
        rw [← getD_eq_getElem2 _ _ hnL, ← hn2, hBi]
      rw [hBn, hgB]
    · rw [if_neg hn2]
      by_cases hn1 : i = n
      · rw [if_pos hn1]
        have hAn : (activeFrames s)[n] = A := by
          rw [← getD_eq_getElem2 _ _ hnL, ← hn1, hAi]
        rw [hAn, hgA]
      · rw [if_neg hn1]
        apply hgother
        · intro hcon
          have := hidsLget n i hnL (by omega) (fun he => hn1 he.symm)
          rw [getD_eq_getElem2 _ _ hnL, hAi] at this
          exact this hcon
        · intro hcon
          have := hidsLget n (i + 1) hnL hilen (fun he => hn2 he.symm)
          rw [getD_eq_getElem2 _ _ hnL, hBi] at this
          exact this hcon
  have hperm : (activeFrames { s with frames := s.frames.map g }).Perm
      (((activeFrames s).set i { B with sequenceOrder := A.sequenceOrder }).set
        (i + 1) { A with sequenceOrder := B.sequenceOrder }) := by
    have p1 := activeFrames_perm { s with frames := s.frames.map g }
    rw [show ({ s with frames := s.frames.map g } : AppState).frames =
      s.frames.map g from rfl, hfilter2] at p1
    have p2 : ((s.frames.filter (fun f => f.active)).map g).Perm
        ((activeFrames s).map g) := ((activeFrames_perm s).symm).map g
    have p4 := set_set_swap_perm (activeFrames s) i
      { A with sequenceOrder := B.sequenceOrder }
      { B with sequenceOrder := A.sequenceOrder } hilen
    rw [← hmapg] at p4
    exact (p1.trans p2).trans p4
  have hgseqF : ∀ f, f ∈ s.frames.filter (fun f => f.active) →
      (g f).sequenceOrder = if f = A then B.sequenceOrder
        else if f = B then A.sequenceOrder else f.sequenceOrder := by
    intro f hf
    by_cases h1 : f = A
    · subst h1
      rw [hgA]
      simp
    · by_cases h2 : f = B
      · subst h2
        rw [hgB]
        simp [h1]
      · have h1b : f.id ≠ A.id :=
          fun he => h1 (idinj f (List.mem_filter.mp hf).1 A hAmem he)
        have h2b : f.id ≠ B.id :=
          fun he => h2 (idinj f (List.mem_filter.mp hf).1 B hBframes he)
        rw [hgother f h1b h2b]
        simp [h1, h2]
  have hords2 : (({ s with frames := s.frames.map g } : AppState).frames.filter
      (fun f => f.active)).Pairwise
      (fun a b => a.sequenceOrder ≠ b.sequenceOrder) := by
    rw [show ({ s with frames := s.frames.map g } : AppState).frames =
      s.frames.map g from rfl, hfilter2, List.pairwise_map]
    refine List.Pairwise.imp_of_mem ?_ hords
    intro a b ha hb hseq
    have hab : a ≠ b := fun he => hseq (by rw [he])
    rw [hgseqF a ha, hgseqF b hb]
    by_cases ha1 : a = A
    · rw [if_pos ha1]
      by_cases hb1 : b = A
      · exact absurd (ha1.trans hb1.symm) hab
      · rw [if_neg hb1]
        by_cases hb2 : b = B
        · rw [if_pos hb2]
          rw [ha1, hb2] at hseq
          exact hseq.symm
        · rw [if_neg hb2]
          intro he
          exact hb2 (seqinjF B hBfilter b hb he).symm
    · rw [if_neg ha1]
      by_cases ha2 : a = B
      · rw [if_pos ha2]
        by_cases hb1 : b = A
        · rw [if_pos hb1]
          rw [ha2, hb1] at hseq
          exact hseq.symm
        · rw [if_neg hb1]
          by_cases hb2 : b = B
          · exact absurd (ha2.trans hb2.symm) hab
          · rw [if_neg hb2]
            intro he
            exact hb1 (seqinjF A hAfilter b hb he).symm
      · rw [if_neg ha2]
        by_cases hb1 : b = A
        · rw [if_pos hb1]
          intro he
          exact ha2 (seqinjF a ha B hBfilter he)
        · rw [if_neg hb1]
          by_cases hb2 : b = B
          · rw [if_pos hb2]
            intro he
            exact ha1 (seqinjF a ha A hAfilter he)
          · rw [if_neg hb2]
            exact hseq
  have hlt2 := activeFrames_pairwise_lt _ hords2
  have hltL := activeFrames_pairwise_lt s hords
  have hseqk : ∀ k, k < (activeFrames s).length →
      ((((activeFrames s).set i { B with sequenceOrder := A.sequenceOrder }).set
        (i + 1) { A with sequenceOrder := B.sequenceOrder }).getD k
          default).sequenceOrder =
      ((activeFrames s).getD k default).sequenceOrder := by
    intro k hk
    rw [setGetD_gen _ _ _ _ (by simpa using hk), setGetD_gen _ _ _ _ hk]
    by_cases hk2 : i + 1 = k
    · rw [if_pos hk2, ← hk2, hBi]
    · rw [if_neg hk2]
      by_cases hk1 : i = k
      · rw [if_pos hk1, ← hk1, hAi]
      · rw [if_neg hk1]
  have hlt3 : (((activeFrames s).set i
      { B with sequenceOrder := A.sequenceOrder }).set
        (i + 1) { A with sequenceOrder := B.sequenceOrder }).Pairwise
      (fun a b => a.sequenceOrder < b.sequenceOrder) := by
    apply pairwise_of_getD
    intro m n hmn hn
    have hnL : n < (activeFrames s).length := by simpa using hn
    rw [hseqk m (by omega), hseqk n hnL]
    exact pairwise_getD hltL m n hmn hnL
  exact strictSorted_eq hperm hlt2 hlt3

/-- C5 (amended): on a frame list with pairwise distinct ids whose active
frames have pairwise distinct sequenceOrder values, with exactly one frame
selected and that frame active, if moving by +1 does not hit the end of the
active-sorted list then moving +1 and then -1 with the same frame selected
restores the state exactly (in particular both swapped sequenceOrder values);
and a single call is a no-op when the selection size differs from 1, when the
selected frame is absent or inactive, and when the neighbor index is out of
bounds. -/
theorem moveInSequence_inverse (s : AppState) (sid : ℕ) (A : FrameConfig)
    (i : ℕ)
    (hids : s.frames.Pairwise (fun a b => a.id ≠ b.id))
    (hords : (s.frames.filter (fun f => f.active)).Pairwise
      (fun a b => a.sequenceOrder ≠ b.sequenceOrder))
    (hsel : s.selectedFrameIds = [sid])
    (hA : s.frames.find? (fun f => f.id == sid) = some A)
    (hAact : A.active = true)
    (hi : (activeFrames s).findIdx? (fun f => f.id == sid) = some i)
    (hbound : i + 1 < (activeFrames s).length) :
    moveFrameInSequence (moveFrameInSequence s 1) (-1) = s ∧
    (∀ (t : AppState) (d : ℤ), t.selectedFrameIds.length ≠ 1 →
      moveFrameInSequence t d = t) ∧
    (∀ (t : AppState) (d : ℤ) (tid : ℕ),
      t.selectedFrameIds = [tid] →
      t.frames.find? (fun f => f.id == tid) = none →
      moveFrameInSequence t d = t) ∧
    (∀ (t : AppState) (d : ℤ) (tid : ℕ) (F : FrameConfig),
      t.selectedFrameIds = [tid] →
      t.frames.find? (fun f => f.id == tid) = some F → F.active = false →
      moveFrameInSequence t d = t) ∧
    (∀ (t : AppState) (d : ℤ) (tid : ℕ) (F : FrameConfig) (k : ℕ),
      t.selectedFrameIds = [tid] →
      t.frames.find? (fun f => f.id == tid) = some F → F.active = true →
      (activeFrames t).findIdx? (fun f => f.id == tid) = some k →
      ((k : ℤ) + d < 0 ∨ ((activeFrames t).length : ℤ) ≤ (k : ℤ) + d) →
      moveFrameInSequence t d = t) := by
  have hnoop1 : ∀ (t : AppState) (d : ℤ), t.selectedFrameIds.length ≠ 1 →
      moveFrameInSequence t d = t := by
    intro t d h
    unfold moveFrameInSequence
    rw [if_pos h]
  have hnoop2 : ∀ (t : AppState) (d : ℤ) (tid : ℕ),
      t.selectedFrameIds = [tid] →
      t.frames.find? (fun f => f.id == tid) = none →
      moveFrameInSequence t d = t := by
    intro t d tid h1 h2
    unfold moveFrameInSequence
    rw [h1]
    simp only [List.headD_cons, List.length_cons, List.length_nil]
    rw [if_neg (by omega : ¬(0 + 1 ≠ 1)), h2]
  have hnoop3 : ∀ (t : AppState) (d : ℤ) (tid : ℕ) (F : FrameConfig),
      t.selectedFrameIds = [tid] →
      t.frames.find? (fun f => f.id == tid) = some F → F.active = false →
      moveFrameInSequence t d = t := by
    intro t d tid F h1 h2 h3
    unfold moveFrameInSequence
    rw [h1]
    simp only [List.headD_cons, List.length_cons, List.length_nil]
    rw [if_neg (by omega : ¬(0 + 1 ≠ 1)), h2]
    simp only
    rw [if_pos h3]
  have hnoop4 : ∀ (t : AppState) (d : ℤ) (tid : ℕ) (F : FrameConfig) (k : ℕ),
      t.selectedFrameIds = [tid] →
      t.frames.find? (fun f => f.id == tid) = some F → F.active = true →
      (activeFrames t).findIdx? (fun f => f.id == tid) = some k →
      ((k : ℤ) + d < 0 ∨ ((activeFrames t).length : ℤ) ≤ (k : ℤ) + d) →
      moveFrameInSequence t d = t := by
    intro t d tid F k h1 h2 h3 h4 h5
    unfold moveFrameInSequence
    rw [h1]
    simp only [List.headD_cons, List.length_cons, List.length_nil]
    rw [if_neg (by omega : ¬(0 + 1 ≠ 1)), h2]
    simp only
    rw [if_neg (by rw [h3]; simp : ¬(F.active = false)), h4]
    simp only
    rw [if_pos h5]
  refine ⟨?_, hnoop1, hnoop2, hnoop3, hnoop4⟩
  have hAmem : A ∈ s.frames := List.mem_of_find?_eq_some hA
  have hAid : A.id = sid := by
    have := List.find?_some hA
    simpa using this
  have idinj := keyInj (fun f => f.id) hids
  have hidsF : (s.frames.filter (fun f => f.active)).Pairwise
      (fun a b => a.id ≠ b.id) :=
    List.Pairwise.sublist (List.filter_sublist _) hids
  have hidsL : (activeFrames s).Pairwise (fun a b => a.id ≠ b.id) :=
    ((activeFrames_perm s).pairwise_iff (fun h => h.symm)).mpr hidsF
  obtain ⟨hiL, hpredi, hmini⟩ := List.findIdx?_eq_some_iff_getElem.mp hi
  have hAi : (activeFrames s).getD i default = A := by
    have hmemi : (activeFrames s).getD i default ∈ activeFrames s :=
      getD_mem_of_lt _ _ hiL
    have hmemF : (activeFrames s).getD i default ∈ s.frames :=
      (List.mem_filter.mp ((activeFrames_perm s).mem_iff.mp hmemi)).1
    have hid2 : ((activeFrames s).getD i default).id = sid := by
      rw [getD_eq_getElem2 _ _ hiL]
      simpa using hpredi
    exact idinj _ hmemF A hAmem (by simp only [hid2, hAid])
  obtain ⟨B, hBdef⟩ : ∃ B, (activeFrames s).getD (i + 1) default = B := ⟨_, rfl⟩
  have hABne : A.id ≠ B.id := by
    have := pairwise_getD hidsL i (i + 1) (by omega) hbound
    rwa [hAi, hBdef] at this
  have hBL : B ∈ activeFrames s := by
    rw [← hBdef]
    exact getD_mem_of_lt _ _ hbound
  have hBframes : B ∈ s.frames :=
    (List.mem_filter.mp ((activeFrames_perm s).mem_iff.mp hBL)).1
  have hBid : B.id ≠ sid := by
    rw [← hAid]
    exact fun he => hABne he.symm
  have step1 := moveFrameInSequence_step s sid A i (i + 1) 1 hsel hA hAact hi
    (by push_cast; ring) hbound
  rw [hBdef] at step1
  have hswap := activeFrames_swap s sid A B i hids hords hA hAact hbound
    hAi hBdef
  rw [step1]
  have hsel1 : ({ s with frames := s.frames.map (fun f =>
      if f.id == A.id then { f with sequenceOrder := B.sequenceOrder }
      else if f.id == B.id then { f with sequenceOrder := A.sequenceOrder }
      else f) } : AppState).selectedFrameIds = [sid] := hsel
  have hfind1 : (s.frames.map (fun f =>
      if f.id == A.id then { f with sequenceOrder := B.sequenceOrder }
      else if f.id == B.id then { f with sequenceOrder := A.sequenceOrder }
      else f)).find? (fun f => f.id == sid) =
      some { A with sequenceOrder := B.sequenceOrder } := by
    rw [List.find?_map]
    have hcongr : ((fun f : FrameConfig => f.id == sid) ∘ (fun f =>
        if f.id == A.id then { f with sequenceOrder := B.sequenceOrder }
        else if f.id == B.id then { f with sequenceOrder := A.sequenceOrder }
        else f)) = (fun f : FrameConfig => f.id == sid) := by
      funext f
      simp only [Function.comp_apply]
      by_cases h1 : f.id = A.id
      · simp [h1]
      · by_cases h2 : f.id = B.id
        · simp [h1, h2, Ne.symm hABne]
        · simp [h1, h2]
    rw [hcongr, hA]
    simp
  have hlen1 : (activeFrames { s with frames := s.frames.map (fun f =>
      if f.id == A.id then { f with sequenceOrder := B.sequenceOrder }
      else if f.id == B.id then { f with sequenceOrder := A.sequenceOrder }
      else f) }).length = (activeFrames s).length := by
    rw [hswap]
    simp
  have hfidx1 : (activeFrames { s with frames := s.frames.map (fun f =>
      if f.id == A.id then { f with sequenceOrder := B.sequenceOrder }
      else if f.id == B.id then { f with sequenceOrder := A.sequenceOrder }
      else f) }).findIdx? (fun f => f.id == sid) = some (i + 1) := by
    rw [hswap]
    apply List.findIdx?_eq_some_iff_getElem.mpr
    have hlen2 : (((activeFrames s).set i
        { B with sequenceOrder := A.sequenceOrder }).set (i + 1)
        { A with sequenceOrder := B.sequenceOrder }).length =
        (activeFrames s).length := by simp
    refine ⟨by rw [hlen2]; omega, ?_, ?_⟩
    · have hv : (((activeFrames s).set i
          { B with sequenceOrder := A.sequenceOrder }).set (i + 1)
          { A with sequenceOrder := B.sequenceOrder }).getD (i + 1) default =
          { A with sequenceOrder := B.sequenceOrder } := by
        rw [setGetD_gen _ _ _ _ (by rw [List.length_set]; omega), if_pos rfl]
      rw [← getD_eq_getElem2 _ _ (by rw [hlen2]; omega), hv]
      simp only [beq_iff_eq]
      exact hAid
    · intro j hj
      rw [← getD_eq_getElem2 _ _ (by rw [hlen2]; omega)]
      rw [setGetD_gen _ _ _ _ (by rw [List.length_set]; omega),
        if_neg (by omega)]
      rw [setGetD_gen _ _ _ _ (by omega)]
      by_cases hji : i = j
      · rw [if_pos hji]
        simp only [beq_iff_eq]
        exact hBid
      · rw [if_neg hji]
        have hm := hmini j (by omega)
        rw [← getD_eq_getElem2 _ _ (by omega)] at hm
        exact hm
  have htarget2 : (activeFrames { s with frames := s.frames.map (fun f =>
      if f.id == A.id then { f with sequenceOrder := B.sequenceOrder }
      else if f.id == B.id then { f with sequenceOrder := A.sequenceOrder }
      else f) }).getD i default = { B with sequenceOrder := A.sequenceOrder } := by
    rw [hswap]
    rw [setGetD_gen _ _ _ _ (by rw [List.length_set]; omega),
      if_neg (by omega),
      setGetD_gen _ _ _ _ (by omega), if_pos rfl]
  have step2 := moveFrameInSequence_step
    { s with frames := s.frames.map (fun f =>
      if f.id == A.id then { f with sequenceOrder := B.sequenceOrder }
      else if f.id == B.id then { f with sequenceOrder := A.sequenceOrder }
      else f) } sid { A with sequenceOrder := B.sequenceOrder } (i + 1) i (-1)
    hsel1 hfind1 (by exact hAact) hfidx1 (by push_cast; ring)
    (by rw [hlen1]; omega)
  rw [htarget2] at step2
  rw [step2]
  rw [show ({ s with frames := s.frames.map (fun f =>
      if f.id == A.id then { f with sequenceOrder := B.sequenceOrder }
      else if f.id == B.id then { f with sequenceOrder := A.sequenceOrder }
      else f) } : AppState).frames = s.frames.map (fun f =>
      if f.id == A.id then { f with sequenceOrder := B.sequenceOrder }
      else if f.id == B.id then { f with sequenceOrder := A.sequenceOrder }
      else f) from rfl]
  rw [List.map_map]
  have hfix : s.frames.map ((fun f : FrameConfig =>
      if f.id == ({ A with sequenceOrder := B.sequenceOrder } : FrameConfig).id
      then { f with sequenceOrder :=
        ({ B with sequenceOrder := A.sequenceOrder } : FrameConfig).sequenceOrder }
      else if f.id ==
        ({ B with sequenceOrder := A.sequenceOrder } : FrameConfig).id then
        { f with sequenceOrder :=
          ({ A with sequenceOrder := B.sequenceOrder } : FrameConfig).sequenceOrder }
      else f) ∘ (fun f =>
      if f.id == A.id then { f with sequenceOrder := B.sequenceOrder }
      else if f.id == B.id then { f with sequenceOrder := A.sequenceOrder }
      else f)) = s.frames := by
    have hid : ∀ f ∈ s.frames, ((fun f : FrameConfig =>
        if f.id == A.id then { f with sequenceOrder := A.sequenceOrder }
        else if f.id == B.id then { f with sequenceOrder := B.sequenceOrder }
        else f) ∘ (fun f =>
        if f.id == A.id then { f with sequenceOrder := B.sequenceOrder }
        else if f.id == B.id then { f with sequenceOrder := A.sequenceOrder }
        else f)) f = id f := by
      intro f hf
      simp only [Function.comp_apply, id_eq]
      by_cases h1 : f.id = A.id
      · have hfA : f = A := idinj f hf A hAmem h1
        rw [hfA]
        simp [Ne.symm hABne]
      · by_cases h2 : f.id = B.id
        · have hfB : f = B := idinj f hf B hBframes h2
          rw [hfB]
          simp [Ne.symm hABne]
        · simp [h1, h2]
    calc s.frames.map _ = s.frames.map id :=
          List.map_congr_left (by
            intro f hf
            have := hid f hf
            simpa using this)
      _ = s.frames := List.map_id s.frames
  rw [hfix]

/-- Witness for the amended reorder claim: on a 2-frame grid with frame 0
selected, moving later then earlier restores the state exactly. -/
theorem moveInSequence_witness :
    moveFrameInSequence (moveFrameInSequence stateSeq 1) (-1) = stateSeq :=
  (moveInSequence_inverse stateSeq 0 (gridFrames3.getD 0 default) 0
    (by decide) (by decide) rfl (by decide) (by decide) (by decide)
    (by decide)).1

/-- Counterexample to the reorder claim as frozen: with pairwise distinct ids
but a duplicated sequenceOrder (orders 0, 1, 1 on ids 0, 1, 2), the
preconditions hold (exactly one frame selected, it is active, and moving +1
does not hit the end boundary), yet moving +1 then -1 does not restore the
original sequenceOrder values: they become 1, 0, 1. -/
theorem moveInSequence_cex :
    cexState.selectedFrameIds = [1] ∧
    (cexState.frames.find? (fun f => f.id == 1)).map (fun f => f.active) =
      some true ∧
    (activeFrames cexState).findIdx? (fun f => f.id == 1) = some 1 ∧
    1 + 1 < (activeFrames cexState).length ∧
    (moveFrameInSequence (moveFrameInSequence cexState 1) (-1)).frames.map
      (fun f => f.sequenceOrder) = [1, 0, 1] ∧
    cexState.frames.map (fun f => f.sequenceOrder) = [0, 1, 1] ∧
    (moveFrameInSequence (moveFrameInSequence cexState 1) (-1)).frames.map
      (fun f => f.sequenceOrder) ≠
      cexState.frames.map (fun f => f.sequenceOrder) := by
  refine ⟨rfl, ?_, ?_, ?_, ?_, ?_, ?_⟩ <;> decide
